import Mathlib

/-!
Shallow embedding of the resumable stage-execution and ledger engine of the
video pipeline repository, covering the modules that the claims touch:

* `modules/refiner.py` — LLM transcript refinement stage,
* `modules/vlm_generator.py` — gatekeeper plus vision-model generation stage,
* `modules/adverse_event_detector.py` — safety analysis stage,
* `modules/summarizer.py` — cross-stage join.

External collaborators (the Cerebras and Gemini endpoints, the filesystem)
are modeled as oracles: directory listings are lists of file names, the
per-item call outcomes are scripted, and each stage run is a pure function
from its starting state and oracle to the rows it appends, the artifact
files it writes, and the trace of calls and sleeps it performs.
-/

namespace VideoPipeline

/-! ### Character-list string utilities

Python string primitives (`str.lower`, `in`, `endswith`, `strip`,
`str.split`, `os.path.splitext`) are embedded as structurally recursive
functions over `List Char` so that concrete runs reduce inside the kernel.
-/

/-- Whitespace as recognised by `str.strip` and `str.split` on the
inputs that occur here (space, tab, newline, carriage return). -/
def wsChar (c : Char) : Bool := c == ' ' || c == '\t' || c == '\n' || c == '\r'

/-- Lower-casing of a string, character by character (models `str.lower`,
which on the ASCII file names and error messages used here agrees with
`Char.toLower`). -/
def lowerStr (s : String) : String := (s.toList.map Char.toLower).asString

/-- Python `s.endswith(suf)`. -/
def endsWithStr (s suf : String) : Bool := List.isSuffixOf suf.toList s.toList

/-- Python `s.strip()`. -/
def trimStr (s : String) : String :=
  ((s.toList.dropWhile wsChar).reverse.dropWhile wsChar).reverse.asString

/-- Number of maximal whitespace-separated runs: `inWord` records whether
the previous character was part of a word. -/
def wordRuns : List Char → Bool → Nat
  | [], _ => 0
  | c :: cs, inWord =>
    if wsChar c then wordRuns cs false
    else (if inWord then 0 else 1) + wordRuns cs true

/-- Python `len(s.split())`. -/
def countWords (s : String) : Nat := wordRuns s.toList false

/-- Does the pattern occur at the head of the character list? -/
def leadMatch : List Char → List Char → Bool
  | [], _ => true
  | _ :: _, [] => false
  | p :: ps, c :: cs => p == c && leadMatch ps cs

/-- Does the pattern occur as a contiguous run anywhere in the list? -/
def subAt (pat : List Char) : List Char → Bool
  | [] => leadMatch pat []
  | c :: cs => leadMatch pat (c :: cs) || subAt pat cs

/-- Python `pat in s` substring containment. -/
def strHasSub (s pat : String) : Bool := subAt pat.toList s.toList

/-- Position from the head of the last dot in the list, if any. -/
def lastDotPos : List Char → Option Nat
  | [] => none
  | c :: cs =>
    match lastDotPos cs with
    | some n => some (n + 1)
    | none => if c == '.' then some 0 else none

/-- Stem component of `os.path.splitext` on a bare file name: everything
before the last dot, except that a name whose characters before that dot
are all dots (including a leading-dot-only name) has no extension. -/
def stripExt (s : String) : String :=
  let cs := s.toList
  match lastDotPos cs with
  | none => s
  | some i => if (cs.take i).any (fun c => c != '.') then (cs.take i).asString else s

/-- Extension component of `os.path.splitext` on a bare file name. -/
def extPart (s : String) : String :=
  let cs := s.toList
  match lastDotPos cs with
  | none => ""
  | some i => if (cs.take i).any (fun c => c != '.') then (cs.drop i).asString else ""

/-! ### Sorting

Python `sorted` on a set of strings produces the lexicographically sorted
duplicate-free list.  The order is embedded through `String.toList` so
that comparisons reduce inside the kernel; it is extensionally the
code-point order `sorted` uses. -/

/-- Lexicographic order on strings via their character lists. -/
def strLe (s t : String) : Prop := s.toList ≤ t.toList

instance : DecidableRel strLe := fun s t =>
  inferInstanceAs (Decidable (s.toList ≤ t.toList))

instance : IsTotal String strLe := ⟨fun s t => le_total s.toList t.toList⟩

instance : IsTrans String strLe := ⟨fun _ _ _ h h2 => le_trans h h2⟩

instance : IsAntisymm String strLe :=
  ⟨fun _ _ h h2 => String.toList_inj.mp (le_antisymm h h2)⟩

/-- Python `sorted` applied to a set of strings: deduplicate, then sort. -/
def sortDedup (l : List String) : List String :=
  List.insertionSort strLe l.dedup

theorem sortDedup_filter (q : String → Bool) (l : List String) :
    sortDedup (l.filter q) = (sortDedup l).filter q := by
  apply List.eq_of_perm_of_sorted (r := strLe)
  · refine ((List.perm_insertionSort _ _).trans ?_).trans
      (((List.perm_insertionSort strLe l.dedup).symm).filter q)
    rw [List.perm_ext_iff_of_nodup (List.nodup_dedup _) ((List.nodup_dedup l).filter q)]
    intro a
    simp [List.mem_dedup, List.mem_filter]
  · exact List.sorted_insertionSort _ _
  · exact (List.sorted_insertionSort _ _).filter q

theorem sortDedup_nodup (l : List String) : (sortDedup l).Nodup :=
  ((List.perm_insertionSort strLe l.dedup).nodup_iff).mpr (List.nodup_dedup l)

/-! ### Refiner stage (`modules/refiner.py`)

`run_refiner_pipeline(input_dir, videos_dir, refined_output_dir, log_path,
model_name, delay, max_files)` refines Whisper transcripts with an LLM.
The embedding keeps the names of the source functions. -/

/-- One transcript segment of a Whisper JSON file.  The source key `end`
is a reserved word in Lean and is embedded as `stop`; the Python float
timestamps are modeled as whole seconds, which is all that
`format_time_to_mm_ss` (integer truncation) can observe. -/
structure RSeg where
  start : Nat
  stop : Nat
  text : String
deriving Repr, DecidableEq

/-- Two-digit zero padding, `fString 02d`. -/
def pad2 (n : Nat) : String := if n < 10 then "0" ++ toString n else toString n

/-- refiner.py `format_time_to_mm_ss`. -/
def format_time_to_mm_ss (seconds : Nat) : String :=
  pad2 (seconds / 60) ++ ":" ++ pad2 (seconds % 60)

/-- refiner.py `format_segments_to_txt`: one bracketed line per segment
(the KeyError skip is unreachable here because `RSeg` always carries the
three keys). -/
def format_segments_to_txt (segments : List RSeg) : String :=
  String.intercalate "\n" (segments.map (fun seg =>
    "[" ++ format_time_to_mm_ss seg.start ++ " - " ++ format_time_to_mm_ss seg.stop
      ++ "]: " ++ trimStr seg.text))

/-- Response body of a successful chat completion as the downstream parse
step sees it: `parsed = some segs` when `parse_llm_json_output` followed by
`json.loads` and the per-segment reads yields these segments, `none` when
that chain raises (malformed model output). -/
structure RefBody where
  parsed : Option (List RSeg)
deriving Repr, DecidableEq

/-- One scripted outcome of `client.chat.completions.create` inside
`refine_with_llm`: either a returned body or a raised exception whose
message is given. -/
inductive CallOut where
  | ok (body : RefBody)
  | raised (msg : String)
deriving Repr, DecidableEq

/-- Value handed back to the retry loop by `refine_with_llm`: the
saturation sentinel (the literal error JSON of refiner.py line 86) or a
response body. -/
inductive RefResp where
  | sentinel
  | body (b : RefBody)
deriving Repr, DecidableEq

/-- refiner.py line 84: the saturation markers looked for in the lowered
exception text. -/
def hasSatMarker (msg : String) : Bool :=
  strHasSub (lowerStr msg) "context" || strHasSub (lowerStr msg) "limit"
    || strHasSub (lowerStr msg) "too large"

/-- refiner.py `refine_with_llm` (lines 75-89): a returned body is passed
through; an exception with a saturation marker yields the sentinel; any
other exception sleeps 10 seconds and yields `none`, which the caller
treats as `try again`. -/
def refine_with_llm : CallOut → Option RefResp
  | .ok b => some (.body b)
  | .raised msg => if hasSatMarker msg then some .sentinel else none

/-- Events of a refiner run: each constructor is one distinct effect site
of the source: the chat completion call (line 81), the 10-second backoff
sleep (line 88), the between-item rate-limit sleep (line 176). -/
inductive REvent where
  | callAttempt (basename : String)
  | backoffSleep (secs : Nat)
  | rateSleep (secs : Nat)
deriving Repr, DecidableEq

/-- The `while raw_response is None` loop of refiner.py lines 151-153,
driven by the scripted outcomes for one item.  Returns the events of the
attempts made together with the response; `none` means the script is
exhausted, in which case the source would still be inside the loop. -/
def refineLoop (basename : String) : List CallOut → List REvent × Option RefResp
  | [] => ([], none)
  | o :: rest =>
    match refine_with_llm o with
    | some r => ([.callAttempt basename], some r)
    | none =>
      let t := refineLoop basename rest
      (.callAttempt basename :: .backoffSleep 10 :: t.1, t.2)

/-- The recognised video extensions of refiner.py line 71. -/
def videoExts : List String :=
  [".mp4", ".mov", ".avi", ".mkv", ".webm", ".flv", ".m4v", ".wmv", ".mpeg", ".mpg"]

/-- refiner.py `find_matching_video`: first file of the videos directory
whose stem matches case-insensitively and whose extension is a video
extension.  A missing videos directory is modeled as an empty listing. -/
def find_matching_video (videosListing : List String) (basename : String) : String × Bool :=
  match videosListing.find? (fun filename =>
      lowerStr (stripExt filename) == lowerStr basename
        && videoExts.contains (lowerStr (extPart filename))) with
  | some f => (f, true)
  | none => ("NOT_FOUND", false)

/-- Oracle for one refiner run: the parse of each transcript JSON (`none`
models the unreadable-file except branch of lines 142-144), the scripted
call outcomes per item, and the videos directory listing. -/
structure RefEnv where
  load : String → Option (List RSeg)
  script : String → List CallOut
  videosListing : List String

/-- One row of the refinement CSV log (header at refiner.py line 96). -/
structure RefRow where
  video_name : String
  transcript_name : String
  total_characters : Nat
  total_words : Nat
  video_found : Bool
  success : Bool
deriving Repr, DecidableEq

/-- Result of processing one item of the refiner work set.  `skipped`
mirrors the two `continue` statements of refiner.py lines 139-147: a
skipped item leaves the loop body early and in particular never reaches
the rate-limit sleep of lines 175-176. -/
structure RefStep where
  events : List REvent
  row : Option RefRow
  txtArtifact : Option String
  fullResponse : Option String
  stalled : Bool
  skipped : Bool
deriving Repr, DecidableEq

/-- Segments recovered downstream of a response.  For the saturation
sentinel the chain at lines 160-171 fails: `parse_llm_json_output` returns
the error object unchanged (it has no brackets), `json.loads` parses it to
a dict, and the word-count generator of line 163 then raises
AttributeError on the dict keys, taking the except branch; hence `none`:
no refined text exists and success stays false. -/
def respSegments : RefResp → Option (List RSeg)
  | .sentinel => none
  | .body b => b.parsed

/-- Per-item body of the refiner loop (refiner.py lines 132-173): load the
JSON (silently skipping the item when unreadable or empty), run the retry
loop, write the full response, then either write the refined text and log
a success row or log a failure row. -/
def refinerStep (env : RefEnv) (basename : String) : RefStep :=
  let vf := find_matching_video env.videosListing basename
  match env.load basename with
  | none => { events := [], row := none, txtArtifact := none, fullResponse := none,
              stalled := false, skipped := true }
  | some segments =>
    if segments.isEmpty then
      { events := [], row := none, txtArtifact := none, fullResponse := none,
        stalled := false, skipped := true }
    else
      match refineLoop basename (env.script basename) with
      | (evs, none) =>
        { events := evs, row := none, txtArtifact := none, fullResponse := none,
          stalled := true, skipped := false }
      | (evs, some resp) =>
        match respSegments resp with
        | some segs =>
          let formatted := format_segments_to_txt segs
          { events := evs
            row := some { video_name := vf.1, transcript_name := basename ++ ".txt",
                          total_characters := formatted.length,
                          total_words := (segs.map (fun s => countWords s.text)).sum,
                          video_found := vf.2, success := true }
            txtArtifact := some basename
            fullResponse := some basename, stalled := false, skipped := false }
        | none =>
          { events := evs
            row := some { video_name := vf.1, transcript_name := basename ++ ".txt",
                          total_characters := 0, total_words := 0,
                          video_found := vf.2, success := false }
            txtArtifact := none
            fullResponse := some basename, stalled := false, skipped := false }

/-- Accumulated outcome of a refiner run: one event block per entered item
(its trailing rate-limit sleep included), the appended log rows, the
refined-text artifacts written, the entered items, and whether the run is
stuck inside the retry loop of some item. -/
structure RefOut where
  blocks : List (List REvent)
  rows : List RefRow
  txts : List String
  attempted : List String
  stalled : Bool
deriving Repr, DecidableEq

/-- Iteration of refiner.py lines 132-176 over the work set.  The sleep of
line 176 is reached only by items that were not skipped by a `continue`
(lines 139-147) and is guarded by the source comparison
`basename != to_process[-1]`, embedded as comparison with `lastB`.  An
item whose call script exhausts stalls the whole run: nothing after it
happens. -/
def refinerItems (env : RefEnv) (delay : Nat) (lastB : Option String) :
    List String → RefOut
  | [] => { blocks := [], rows := [], txts := [], attempted := [], stalled := false }
  | b :: rest =>
    let s := refinerStep env b
    if s.stalled then
      { blocks := [s.events], rows := [], txts := [], attempted := [b], stalled := true }
    else
      let tail := refinerItems env delay lastB rest
      { blocks := (s.events ++
            if s.skipped then []
            else if some b = lastB then [] else [REvent.rateSleep delay]) :: tail.blocks
        rows := s.row.toList ++ tail.rows
        txts := s.txtArtifact.toList ++ tail.txts
        attempted := b :: tail.attempted
        stalled := tail.stalled }

/-- Work set of a refiner run (refiner.py lines 117-125): stems of the
JSON files of the input directory minus stems of the text files already in
the output directory, sorted, truncated to `max_files`. -/
def refinerWorkSet (inputListing outListing : List String) (maxFiles : Nat) : List String :=
  let raw := ((inputListing.filter (fun f => endsWithStr f ".json")).map stripExt).dedup
  let done := ((outListing.filter (fun f => endsWithStr f ".txt")).map stripExt).dedup
  (sortDedup (raw.filter (fun b => !done.contains b))).take maxFiles

/-- refiner.py `run_refiner_pipeline` (lines 102-178), the state-relevant
core.  Missing API key or missing directories abort before any per-item
work (lines 110-123); those setup paths perform no calls and append no
rows and are therefore not modeled further. -/
def run_refiner_pipeline (env : RefEnv) (inputListing outListing : List String)
    (delay maxFiles : Nat) : RefOut :=
  let toProcess := refinerWorkSet inputListing outListing maxFiles
  refinerItems env delay toProcess.getLast? toProcess

/-- All events of a refiner run in order. -/
def RefOut.events (o : RefOut) : List REvent := o.blocks.flatten

/-- Number of chat completion calls a refiner run makes for one item. -/
def refCallsFor (o : RefOut) (b : String) : Nat :=
  (o.events.filter (fun e => e = REvent.callAttempt b)).length

/-- Number of rate-limit sleeps of a refiner run. -/
def rateSleepCount (o : RefOut) : Nat :=
  (o.events.filter (fun e => match e with | REvent.rateSleep _ => true | _ => false)).length

/-- Item ids whose refinement log row records a successful terminal
completion (the transcript stem of each row with success true).  The
refiner itself never reads this set back; it is defined to state the
planner equation of the spec against the code. -/
def refinerCompletedIds (ledger : List RefRow) : List String :=
  (ledger.filter (fun r => r.success)).map (fun r => stripExt r.transcript_name)

/-- Modelled from the spec: the Resume Planner contract of section 4.3,
`work_set = candidates - completed_ids - existing_artifact_ids` preserving
candidate order.  This is the claim side of the refinement comparison; the
code side is `refinerWorkSet` and the per-stage run functions. -/
def specPlanWorkSet (candidates completedIds artifactIds : List String) : List String :=
  candidates.filter (fun c => !completedIds.contains c && !artifactIds.contains c)

/-! ### VLM generation stage (`modules/vlm_generator.py`)

`run_vlm_generation_pipeline(dataset_summary_path, refined_dir, output_dir,
aggregate_filename, log_filename, gatekeeper_model, generator_model)`. -/

/-- Upper-casing, character by character (`str.upper` on the ASCII
decision labels used here). -/
def upperStr (s : String) : String := (s.toList.map Char.toUpper).asString

/-- vlm_generator.py `get_stable_id`: strip the extension.  The `None`
branch for falsy input is unreachable at the call site, which guards
against an empty name first. -/
def get_stable_id (filename_or_name : String) : String := stripExt filename_or_name

/-- One row of the dataset summary CSV, with the fields
`run_vlm_generation_pipeline` reads (a missing cell reads as the empty
string, the default of `row.get`). -/
structure SummaryRow where
  video_name : String
  url : String
  title : String
  download_date : String
  transcript_name : String
deriving Repr, DecidableEq

/-- Parsed gatekeeper JSON: each field is present or absent, matching the
`dict.get` defaults of lines 306-308.  The confidence score is carried as
uninterpreted text. -/
structure GateJson where
  decision : Option String
  confidence_score : Option String
  reasoning : Option String
deriving Repr, DecidableEq

/-- Scripted outcome of the gatekeeper model call: a parsed JSON object or
a raised exception with its message. -/
inductive GateOutcome where
  | parsed (j : GateJson)
  | raised (msg : String)
deriving Repr, DecidableEq

/-- vlm_generator.py `check_transcript_quality` (lines 104-122): any
exception is swallowed and turned into a dict whose decision is ERROR and
whose reasoning is the exception text (no confidence key). -/
def check_transcript_quality : GateOutcome → GateJson
  | .parsed j => j
  | .raised msg => { decision := some "ERROR", confidence_score := none, reasoning := some msg }

/-- One annotation step of the analyst JSON schema. -/
structure VStep where
  step_number : Nat
  timestamp_start : String
  timestamp_end : String
  step_title : String
  visual_description : String
  transcript_context : String
  instruments : List String
  anatomy : List String
deriving Repr, DecidableEq

/-- Stage-specific status vocabulary of the VLM log (lines 234 and
313-381).  ACCEPTED and REJECTED are terminal, ERROR_GENERATION is not. -/
inductive VlmStatus where
  | ACCEPTED
  | REJECTED
  | ERROR_GENERATION
deriving Repr, DecidableEq

/-- One row of the VLM CSV log (header at lines 161-164; the timestamp
column is wall-clock noise and is not modeled). -/
structure VlmLogRow where
  video_id : String
  original_filename : String
  status : VlmStatus
  decision : String
  confidence : String
  reasoning : String
  video_title : String
  url : String
  download_date : String
deriving Repr, DecidableEq

/-- The JSONL entry written for an accepted item (lines 333-342). -/
structure VlmEntry where
  video_id : String
  original_filename : String
  video_url : String
  video_title : String
  download_date : String
  transcript_quality_check : GateJson
  vlm_annotations : List VStep
deriving Repr, DecidableEq

/-- Events of a VLM run: the gatekeeper call (line 305), the generator
call (line 328), and the sleep of line 331. -/
inductive VEvent where
  | gateCall (video_id : String)
  | genCall (video_id : String)
  | sleep (secs : Nat)
deriving Repr, DecidableEq

/-- Oracle for one VLM run.  `transcript` abstracts the three-path
transcript lookup and read of lines 277-302 (`none` when every candidate
path misses or the read raises); `gate` and `gen` are the scripted
outcomes of the two model calls (`gen` returning `none` models
`generate_vlm_entry` swallowing an exception, and `some []` a parsed but
empty annotation list, both falsy at line 332). -/
structure VlmEnv where
  transcript : SummaryRow → Option String
  gate : SummaryRow → GateOutcome
  gen : SummaryRow → Option (List VStep)

/-- Outcome of one candidate row of the VLM loop, and of a whole run once
concatenated: events, appended log rows, individual artifacts written
(name and content), aggregate-file appends, and the ids that passed the
resume checks (the work set actually attempted). -/
structure VlmOut where
  events : List VEvent
  rows : List VlmLogRow
  files : List (String × VlmEntry)
  aggregate : List VlmEntry
  attempted : List String
deriving Repr, DecidableEq

/-- The empty outcome (a candidate row that was skipped). -/
def VlmOut.none : VlmOut :=
  { events := [], rows := [], files := [], aggregate := [], attempted := [] }

/-- Terminal statuses of the VLM ledger (line 234). -/
def vlmTerminal (s : VlmStatus) : Bool := s = .ACCEPTED || s = .REJECTED

/-- vlm_generator.py lines 229-238: ids of log rows whose status is
ACCEPTED or REJECTED. -/
def vlmCompletedIds (ledger : List VlmLogRow) : List String :=
  (ledger.filter (fun r => vlmTerminal r.status)).map (fun r => r.video_id)

/-- Per-candidate body of the VLM loop (lines 247-381): guard against
empty name or url, skip when the individual artifact exists or the id is
completed in the log, locate and read the transcript, run the gatekeeper,
and on YES run the generator, sleep 60 seconds, then write the artifact
and an ACCEPTED row or log ERROR_GENERATION. -/
def vlmStep (env : VlmEnv) (existingFiles processedIds : List String)
    (row : SummaryRow) : VlmOut :=
  if row.video_name = "" || row.url = "" then VlmOut.none
  else
    let vid := get_stable_id row.video_name
    if existingFiles.contains (vid ++ ".jsonl") then VlmOut.none
    else if processedIds.contains vid then VlmOut.none
    else
      match env.transcript row with
      | Option.none => { VlmOut.none with attempted := [vid] }
      | some _ =>
        let q := check_transcript_quality (env.gate row)
        let decision := upperStr (q.decision.getD "NO")
        let confidence := q.confidence_score.getD "0.0"
        let reason := q.reasoning.getD "No reason provided"
        if decision != "YES" then
          { events := [.gateCall vid]
            rows := [{ video_id := vid, original_filename := row.video_name,
                       status := .REJECTED, decision := decision, confidence := confidence,
                       reasoning := reason, video_title := row.title, url := row.url,
                       download_date := row.download_date }]
            files := [], aggregate := [], attempted := [vid] }
        else
          match env.gen row with
          | some (s :: rest) =>
            let entry : VlmEntry :=
              { video_id := vid, original_filename := row.video_name,
                video_url := row.url, video_title := row.title,
                download_date := row.download_date,
                transcript_quality_check := q, vlm_annotations := s :: rest }
            { events := [.gateCall vid, .genCall vid, .sleep 60]
              rows := [{ video_id := vid, original_filename := row.video_name,
                         status := .ACCEPTED, decision := decision, confidence := confidence,
                         reasoning := reason, video_title := row.title, url := row.url,
                         download_date := row.download_date }]
              files := [(vid ++ ".jsonl", entry)], aggregate := [entry], attempted := [vid] }
          | _ =>
            { events := [.gateCall vid, .genCall vid, .sleep 60]
              rows := [{ video_id := vid, original_filename := row.video_name,
                         status := .ERROR_GENERATION, decision := decision,
                         confidence := confidence,
                         reasoning := "Model failed to generate valid JSON",
                         video_title := row.title, url := row.url,
                         download_date := row.download_date }]
              files := [], aggregate := [], attempted := [vid] }

/-- Concatenation of the per-candidate outcomes, in candidate order. -/
def vlmItems (env : VlmEnv) (existingFiles processedIds : List String) :
    List SummaryRow → VlmOut
  | [] => VlmOut.none
  | row :: rest =>
    let s := vlmStep env existingFiles processedIds row
    let t := vlmItems env existingFiles processedIds rest
    { events := s.events ++ t.events, rows := s.rows ++ t.rows,
      files := s.files ++ t.files, aggregate := s.aggregate ++ t.aggregate,
      attempted := s.attempted ++ t.attempted }

/-- vlm_generator.py `run_vlm_generation_pipeline` (lines 196-391), the
state-relevant core: read the completed-id set from the log once, read the
output directory listing once, then iterate the summary rows.  Missing
client, missing summary file and empty summary abort before any per-item
work and are not modeled further. -/
def run_vlm_generation_pipeline (env : VlmEnv) (ledger : List VlmLogRow)
    (existingFiles : List String) (df : List SummaryRow) : VlmOut :=
  vlmItems env existingFiles (vlmCompletedIds ledger) df

/-! ### Adverse event detection stage (`modules/adverse_event_detector.py`)

`run_adverse_event_pipeline(vlm_input_dir, output_dir, log_filename,
aggregate_filename, model_name)`. -/

/-- Status vocabulary of the adverse-event log (lines 221, 255, 262).
DETECTED and NO_EVENT are terminal, ERROR is not. -/
inductive AdvStatus where
  | DETECTED
  | NO_EVENT
  | ERROR
deriving Repr, DecidableEq

/-- One row of the adverse-event CSV log (header at line 77; the wall
clock timestamp column is not modeled). -/
structure AdvLogRow where
  video_id : String
  status : AdvStatus
  event_count : Nat
deriving Repr, DecidableEq

/-- One detected adverse event of the safety-analyst JSON schema. -/
structure AdvEventRec where
  event_name : String
  timestamp_start : String
  timestamp_end : String
  reason : String
deriving Repr, DecidableEq

/-- The object parsed from the first line of an input JSONL file; every
field is read with `dict.get` and may be absent. -/
structure AdvInputData where
  video_id : Option String
  original_filename : Option String
  video_url : Option String
  video_title : Option String
  download_date : Option String
  vlm_annotations : List VStep
deriving Repr, DecidableEq

/-- Outcome of opening and parsing one input file (lines 194-203): the
except branch, an empty first line (silently skipped at line 198), or the
parsed object. -/
inductive ReadOut where
  | failed (msg : String)
  | emptyLine
  | ok (d : AdvInputData)
deriving Repr, DecidableEq

/-- adverse_event_detector.py `extract_visual_steps` (lines 94-109): the
empty string when the annotation list is empty, otherwise a bracketed
timeline line per step (the per-key defaults are unreachable because
`VStep` always carries the keys). -/
def extract_visual_steps (d : AdvInputData) : String :=
  if d.vlm_annotations.isEmpty then ""
  else
    "Surgical Steps Timeline:\n" ++ String.join (d.vlm_annotations.map (fun step =>
      "[" ++ step.timestamp_start ++ " - " ++ step.timestamp_end ++ "]: "
        ++ step.visual_description ++ "\n"))

/-- The JSONL entry written for a DETECTED item (lines 233-243). -/
structure AdvEntry where
  video_id : Option String
  original_filename : Option String
  video_url : Option String
  video_title : Option String
  download_date : Option String
  adverse_events : List AdvEventRec
deriving Repr, DecidableEq

/-- Events of an adverse-event run: the safety-analyst call (line 215) and
the sleep of line 217. -/
inductive AEvent where
  | detectCall (video_id : String)
  | sleep (secs : Nat)
deriving Repr, DecidableEq

/-- Oracle for one adverse-event run.  `readF` is keyed by input file
name; `detect` is the scripted outcome of `detect_adverse_events`, keyed
by item id: `none` models the swallowed exception of lines 132-134, and
the returned list already reflects the `result.get` default of line 225 (a
response without the key behaves as the empty list). -/
structure AdvEnv where
  readF : String → ReadOut
  detect : String → Option (List AdvEventRec)

/-- Outcome of one input file of the adverse-event loop, and of a whole
run once concatenated. -/
structure AdvOut where
  events : List AEvent
  rows : List AdvLogRow
  files : List (String × AdvEntry)
  aggregate : List AdvEntry
  attempted : List String
deriving Repr, DecidableEq

/-- The empty outcome (an input file that was skipped). -/
def AdvOut.none : AdvOut :=
  { events := [], rows := [], files := [], aggregate := [], attempted := [] }

/-- Terminal statuses of the adverse-event ledger (line 157). -/
def advTerminal (s : AdvStatus) : Bool := s = .DETECTED || s = .NO_EVENT

/-- adverse_event_detector.py lines 152-161: ids of log rows whose status
is DETECTED or NO_EVENT. -/
def advCompletedIds (ledger : List AdvLogRow) : List String :=
  (ledger.filter (fun r => advTerminal r.status)).map (fun r => r.video_id)

/-- Per-file body of the adverse-event loop (lines 183-262): skip when the
id is completed in the log; otherwise read the file (error or empty first
line: continue), extract the visual steps (empty: continue), call the
analyst, sleep 30 seconds, then log ERROR, or write the artifact and log
DETECTED, or log NO_EVENT. -/
def advStep (env : AdvEnv) (processedIds : List String) (filename : String) : AdvOut :=
  let vid := stripExt filename
  if processedIds.contains vid then AdvOut.none
  else
    match env.readF filename with
    | .failed _ => { AdvOut.none with attempted := [vid] }
    | .emptyLine => { AdvOut.none with attempted := [vid] }
    | .ok d =>
      if extract_visual_steps d = "" then { AdvOut.none with attempted := [vid] }
      else
        match env.detect vid with
        | Option.none =>
          { events := [.detectCall vid, .sleep 30]
            rows := [{ video_id := vid, status := .ERROR, event_count := 0 }]
            files := [], aggregate := [], attempted := [vid] }
        | some evts =>
          if evts.isEmpty then
            { events := [.detectCall vid, .sleep 30]
              rows := [{ video_id := vid, status := .NO_EVENT, event_count := 0 }]
              files := [], aggregate := [], attempted := [vid] }
          else
            let entry : AdvEntry :=
              { video_id := d.video_id, original_filename := d.original_filename,
                video_url := d.video_url, video_title := d.video_title,
                download_date := d.download_date, adverse_events := evts }
            { events := [.detectCall vid, .sleep 30]
              rows := [{ video_id := vid, status := .DETECTED, event_count := evts.length }]
              files := [(vid ++ ".jsonl", entry)], aggregate := [entry],
              attempted := [vid] }

/-- Concatenation of the per-file outcomes, in listing order. -/
def advItems (env : AdvEnv) (processedIds : List String) : List String → AdvOut
  | [] => AdvOut.none
  | f :: rest =>
    let s := advStep env processedIds f
    let t := advItems env processedIds rest
    { events := s.events ++ t.events, rows := s.rows ++ t.rows,
      files := s.files ++ t.files, aggregate := s.aggregate ++ t.aggregate,
      attempted := s.attempted ++ t.attempted }

/-- adverse_event_detector.py `run_adverse_event_pipeline` (lines
136-271), the state-relevant core: the input listing is filtered to JSONL
files that are not the aggregate, the completed-id set is read from the
log once, then the files are processed in listing order.  Note that the
run reads its own log but never lists its output directory: the output
directory content affects nothing. -/
def run_adverse_event_pipeline (env : AdvEnv) (ledger : List AdvLogRow)
    (inputListing : List String) : AdvOut :=
  let input_files := inputListing.filter (fun f =>
    endsWithStr f ".jsonl" && !(strHasSub f "all.jsonl"))
  advItems env (advCompletedIds ledger) input_files

/-! ### Cross-stage join (`modules/summarizer.py`) -/

/-- A CSV cell whose typing may have drifted between numeric and text;
`astype(str)` normalizes it before the merge. -/
inductive Cell where
  | num (n : Int)
  | txt (s : String)
deriving Repr, DecidableEq

/-- The text normalization `astype(str)` applies to a join key column. -/
def cellStr : Cell → String
  | .num n => toString n
  | .txt s => s

/-- One row of the refinement log as the summarizer reads it (the columns
it uses). -/
structure SumLogRow where
  video_name : Cell
  transcript_name : String
  total_words : Nat
deriving Repr, DecidableEq

/-- One row of the download metadata CSV (the columns the summarizer
uses). -/
structure MetaRow where
  filename : Cell
  title : String
  audio_filename : String
  duration_seconds : Nat
  channel_name : String
  url : String
  download_date : String
deriving Repr, DecidableEq

/-- One row of the final dataset summary (summarizer.py lines 45-69). -/
structure FinalRow where
  title : String
  video_name : String
  transcript_name : String
  audio_name : String
  duration_seconds : Nat
  word_count : Nat
  channel_name : String
  url : String
  download_name : String
  download_date : String
deriving Repr, DecidableEq

/-- The `pd.merge(df_log, df_meta, left_on, right_on, how=inner)` of lines
32-38, with both key columns already normalized to text: every left row is
paired with every right row whose normalized key matches, in left-then-
right order. -/
def pdMergeInner (log : List SumLogRow) (meta : List MetaRow) :
    List (SumLogRow × MetaRow) :=
  log.flatMap (fun l =>
    (meta.filter (fun m => cellStr m.filename == cellStr l.video_name)).map
      (fun m => (l, m)))

/-- Result of `create_dataset_info`: the empty merge is reported as a
warning and nothing is written; otherwise the summary rows are written. -/
inductive SumResult where
  | emptyWarning
  | written (rows : List FinalRow)
deriving Repr, DecidableEq

/-- summarizer.py `create_dataset_info` (lines 5-80), the state-relevant
core: merge, warn on an empty result, otherwise build the final column
selection.  Missing input files and unreadable CSVs return before the
merge and are not modeled further. -/
def create_dataset_info (log : List SumLogRow) (meta : List MetaRow) : SumResult :=
  let merged := pdMergeInner log meta
  if merged.isEmpty then .emptyWarning
  else
    .written (merged.map (fun p =>
      { title := p.2.title, video_name := cellStr p.1.video_name,
        transcript_name := p.1.transcript_name, audio_name := p.2.audio_filename,
        duration_seconds := p.2.duration_seconds, word_count := p.1.total_words,
        channel_name := p.2.channel_name, url := p.2.url,
        download_name := cellStr p.2.filename, download_date := p.2.download_date }))

/-! ### Composition of runs

The ledger is the only state a stage reads back from itself across runs
(the VLM stage also reads its output listing).  A later run may see any
environment, candidate set and directory content, so a multi-run scenario
threads only the ledger and quantifies over everything else. -/

/-- Everything but the ledger that one VLM run depends on. -/
structure VlmRunInput where
  env : VlmEnv
  files : List String
  df : List SummaryRow

/-- Ledger after one more VLM run (append-only). -/
def vlmLedgerStep (ledger : List VlmLogRow) (inp : VlmRunInput) : List VlmLogRow :=
  ledger ++ (run_vlm_generation_pipeline inp.env ledger inp.files inp.df).rows

/-- Ledger after a sequence of VLM runs. -/
def vlmLedgerRuns (ledger : List VlmLogRow) (inps : List VlmRunInput) : List VlmLogRow :=
  inps.foldl vlmLedgerStep ledger

/-- Rows of a VLM ledger carrying the given item id. -/
def vlmRowsFor (ledger : List VlmLogRow) (id : String) : List VlmLogRow :=
  ledger.filter (fun r => r.video_id = id)

/-- Does a VLM ledger contain a terminal row for the id? -/
def vlmHasTerminal (ledger : List VlmLogRow) (id : String) : Bool :=
  ledger.any (fun r => r.video_id = id && vlmTerminal r.status)

/-- Everything but the ledger that one adverse-event run depends on. -/
structure AdvRunInput where
  env : AdvEnv
  inputListing : List String

/-- Ledger after one more adverse-event run (append-only). -/
def advLedgerStep (ledger : List AdvLogRow) (inp : AdvRunInput) : List AdvLogRow :=
  ledger ++ (run_adverse_event_pipeline inp.env ledger inp.inputListing).rows

/-- Ledger after a sequence of adverse-event runs. -/
def advLedgerRuns (ledger : List AdvLogRow) (inps : List AdvRunInput) : List AdvLogRow :=
  inps.foldl advLedgerStep ledger

/-- Rows of an adverse-event ledger carrying the given item id. -/
def advRowsFor (ledger : List AdvLogRow) (id : String) : List AdvLogRow :=
  ledger.filter (fun r => r.video_id = id)

/-- Does an adverse-event ledger contain a terminal row for the id? -/
def advHasTerminal (ledger : List AdvLogRow) (id : String) : Bool :=
  ledger.any (fun r => r.video_id = id && advTerminal r.status)

/-- Number of chat completion attempts in a refiner event list. -/
def callAttemptCount (evs : List REvent) : Nat :=
  (evs.filter (fun e => match e with | REvent.callAttempt _ => true | _ => false)).length

/-! ### Helper lemmas -/

theorem vlmStep_rows_id (env : VlmEnv) (existingFiles processedIds : List String)
    (row : SummaryRow) :
    ∀ r ∈ (vlmStep env existingFiles processedIds row).rows,
      r.video_id = get_stable_id row.video_name ∧ r.video_id ∉ processedIds := by
  intro r hr
  unfold vlmStep at hr
  dsimp only [] at hr
  repeat' split at hr
  all_goals simp_all [VlmOut.none]

theorem vlmItems_rows_id (env : VlmEnv) (existingFiles processedIds : List String)
    (df : List SummaryRow) :
    ∀ r ∈ (vlmItems env existingFiles processedIds df).rows,
      r.video_id ∉ processedIds := by
  induction df with
  | nil => intro r hr; simp [vlmItems, VlmOut.none] at hr
  | cons row rest ih =>
    intro r hr
    simp only [vlmItems, List.mem_append] at hr
    rcases hr with hr | hr
    · exact (vlmStep_rows_id env existingFiles processedIds row r hr).2
    · exact ih r hr

theorem vlm_completed_of_terminal {ledger : List VlmLogRow} {id : String}
    (h : vlmHasTerminal ledger id = true) : id ∈ vlmCompletedIds ledger := by
  unfold vlmHasTerminal at h
  rw [List.any_eq_true] at h
  obtain ⟨r, hr, hpr⟩ := h
  rw [Bool.and_eq_true, decide_eq_true_eq] at hpr
  unfold vlmCompletedIds
  rw [List.mem_map]
  exact ⟨r, List.mem_filter.mpr ⟨hr, hpr.2⟩, hpr.1⟩

theorem vlm_run_no_rows_for_terminal (env : VlmEnv) (ledger : List VlmLogRow)
    (existingFiles : List String) (df : List SummaryRow) {id : String}
    (h : vlmHasTerminal ledger id = true) :
    vlmRowsFor (run_vlm_generation_pipeline env ledger existingFiles df).rows id = [] := by
  unfold vlmRowsFor
  rw [List.filter_eq_nil_iff]
  intro r hr
  have h2 := vlmItems_rows_id env existingFiles (vlmCompletedIds ledger) df r hr
  have h3 := vlm_completed_of_terminal h
  simp only [decide_eq_true_eq]
  intro he
  exact h2 (he ▸ h3)

theorem vlmHasTerminal_append_left {ledger more : List VlmLogRow} {id : String}
    (h : vlmHasTerminal ledger id = true) : vlmHasTerminal (ledger ++ more) id = true := by
  unfold vlmHasTerminal at h ⊢
  rw [List.any_append, h, Bool.true_or]

theorem vlm_terminal_frozen (ledger : List VlmLogRow) (inps : List VlmRunInput)
    {id : String} (h : vlmHasTerminal ledger id = true) :
    vlmRowsFor (vlmLedgerRuns ledger inps) id = vlmRowsFor ledger id := by
  induction inps generalizing ledger with
  | nil => rfl
  | cons inp rest ih =>
    show vlmRowsFor (vlmLedgerRuns (vlmLedgerStep ledger inp) rest) id = _
    have hstep : vlmHasTerminal (vlmLedgerStep ledger inp) id = true := by
      unfold vlmLedgerStep
      exact vlmHasTerminal_append_left h
    rw [ih _ hstep]
    unfold vlmLedgerStep vlmRowsFor
    rw [List.filter_append]
    rw [show (run_vlm_generation_pipeline inp.env ledger inp.files inp.df).rows.filter
        (fun r => decide (r.video_id = id)) = [] from
      vlm_run_no_rows_for_terminal inp.env ledger inp.files inp.df h]
    rw [List.append_nil]

theorem advStep_rows_id (env : AdvEnv) (processedIds : List String) (f : String) :
    ∀ r ∈ (advStep env processedIds f).rows,
      r.video_id = stripExt f ∧ r.video_id ∉ processedIds := by
  intro r hr
  unfold advStep at hr
  dsimp only [] at hr
  repeat' split at hr
  all_goals simp_all [AdvOut.none]

theorem advItems_rows_id (env : AdvEnv) (processedIds : List String)
    (fs : List String) :
    ∀ r ∈ (advItems env processedIds fs).rows,
      r.video_id ∉ processedIds := by
  induction fs with
  | nil => intro r hr; simp [advItems, AdvOut.none] at hr
  | cons f rest ih =>
    intro r hr
    simp only [advItems, List.mem_append] at hr
    rcases hr with hr | hr
    · exact (advStep_rows_id env processedIds f r hr).2
    · exact ih r hr

theorem adv_completed_of_terminal {ledger : List AdvLogRow} {id : String}
    (h : advHasTerminal ledger id = true) : id ∈ advCompletedIds ledger := by
  unfold advHasTerminal at h
  rw [List.any_eq_true] at h
  obtain ⟨r, hr, hpr⟩ := h
  rw [Bool.and_eq_true, decide_eq_true_eq] at hpr
  unfold advCompletedIds
  rw [List.mem_map]
  exact ⟨r, List.mem_filter.mpr ⟨hr, hpr.2⟩, hpr.1⟩

theorem adv_run_no_rows_for_terminal (env : AdvEnv) (ledger : List AdvLogRow)
    (inputListing : List String) {id : String}
    (h : advHasTerminal ledger id = true) :
    advRowsFor (run_adverse_event_pipeline env ledger inputListing).rows id = [] := by
  unfold advRowsFor
  rw [List.filter_eq_nil_iff]
  intro r hr
  have h2 := advItems_rows_id env (advCompletedIds ledger) _ r hr
  have h3 := adv_completed_of_terminal h
  simp only [decide_eq_true_eq]
  intro he
  exact h2 (he ▸ h3)

theorem advHasTerminal_append_left {ledger more : List AdvLogRow} {id : String}
    (h : advHasTerminal ledger id = true) : advHasTerminal (ledger ++ more) id = true := by
  unfold advHasTerminal at h ⊢
  rw [List.any_append, h, Bool.true_or]

theorem adv_terminal_frozen (ledger : List AdvLogRow) (inps : List AdvRunInput)
    {id : String} (h : advHasTerminal ledger id = true) :
    advRowsFor (advLedgerRuns ledger inps) id = advRowsFor ledger id := by
  induction inps generalizing ledger with
  | nil => rfl
  | cons inp rest ih =>
    show advRowsFor (advLedgerRuns (advLedgerStep ledger inp) rest) id = _
    have hstep : advHasTerminal (advLedgerStep ledger inp) id = true := by
      unfold advLedgerStep
      exact advHasTerminal_append_left h
    rw [ih _ hstep]
    unfold advLedgerStep advRowsFor
    rw [List.filter_append]
    rw [show (run_adverse_event_pipeline inp.env ledger inp.inputListing).rows.filter
        (fun r => decide (r.video_id = id)) = [] from
      adv_run_no_rows_for_terminal inp.env ledger inp.inputListing h]
    rw [List.append_nil]

/-- Membership characterization of the summarizer merge: a pair survives
exactly when both rows are present and their normalized keys agree. -/
theorem pdMergeInner_mem (log : List SumLogRow) (meta : List MetaRow)
    (l : SumLogRow) (m : MetaRow) :
    (l, m) ∈ pdMergeInner log meta ↔
      l ∈ log ∧ m ∈ meta ∧ cellStr m.filename = cellStr l.video_name := by
  simp only [pdMergeInner, List.mem_flatMap, List.mem_map, List.mem_filter, beq_iff_eq,
    Prod.mk.injEq]
  constructor
  · rintro ⟨l2, hl2, m2, ⟨hm2, hk⟩, rfl, rfl⟩
    exact ⟨hl2, hm2, hk⟩
  · rintro ⟨hl, hm, hk⟩
    exact ⟨l, hl, m, ⟨hm, hk⟩, rfl, rfl⟩

/-- A sample annotation step used by concrete scenarios. -/
def sampleStep : VStep :=
  { step_number := 1, timestamp_start := "00:10", timestamp_end := "01:30",
    step_title := "Corneal incision", visual_description := "Keratome enters the cornea",
    transcript_context := "", instruments := ["keratome"], anatomy := ["cornea"] }

/-! ### Claims -/

/-- Claim C1 (at-most-one-terminal completion): once a stage ledger
contains a terminal-status row for an item id (ACCEPTED or REJECTED for
the vlm stage, DETECTED or NO_EVENT for the adverse-event stage), no later
run of that stage — whatever its environment, candidate set and directory
content — appends another row for that id: after any sequence of later
runs the ledger rows for the id are exactly the rows already there. -/
theorem claim_C1_at_most_one_terminal
    (idV idA : String) (ledgerV : List VlmLogRow) (ledgerA : List AdvLogRow)
    (runsV : List VlmRunInput) (runsA : List AdvRunInput)
    (hV : vlmHasTerminal ledgerV idV = true)
    (hA : advHasTerminal ledgerA idA = true) :
    vlmRowsFor (vlmLedgerRuns ledgerV runsV) idV = vlmRowsFor ledgerV idV ∧
    advRowsFor (advLedgerRuns ledgerA runsA) idA = advRowsFor ledgerA idA :=
  ⟨vlm_terminal_frozen ledgerV runsV hV, adv_terminal_frozen ledgerA runsA hA⟩

/-- A VLM ledger holding one terminal (REJECTED) row for item `v`. -/
def c1LedgerV : List VlmLogRow :=
  [{ video_id := "v", original_filename := "v.mp4", status := .REJECTED,
     decision := "NO", confidence := "0.2", reasoning := "gibberish",
     video_title := "t", url := "u", download_date := "d" }]

/-- A later VLM run whose candidate set offers item `v` again, with an
oracle that would accept it if it were called. -/
def c1RunV : VlmRunInput :=
  { env := { transcript := fun _ => some "transcript text",
             gate := fun _ => GateOutcome.parsed
               { decision := some "YES", confidence_score := some "0.9", reasoning := some "ok" },
             gen := fun _ => some [sampleStep] },
    files := [],
    df := [{ video_name := "v.mp4", url := "u", title := "t", download_date := "d",
             transcript_name := "v.txt" }] }

/-- An adverse-event ledger holding one terminal (NO_EVENT) row for `x`. -/
def c1LedgerA : List AdvLogRow :=
  [{ video_id := "x", status := .NO_EVENT, event_count := 0 }]

/-- A later adverse-event run whose input listing offers `x.jsonl` again. -/
def c1RunA : AdvRunInput :=
  { env := { readF := fun _ => ReadOut.ok
               { video_id := some "x", original_filename := some "x.mp4",
                 video_url := some "u", video_title := some "t",
                 download_date := some "d", vlm_annotations := [sampleStep] },
             detect := fun _ => some [] },
    inputListing := ["x.jsonl"] }

/-- Witness for C1: with a terminal row present, a concrete later run that
offers the same item again appends nothing for it. -/
theorem claim_C1_witness :
    vlmRowsFor (vlmLedgerRuns c1LedgerV [c1RunV]) "v" = vlmRowsFor c1LedgerV "v" ∧
    advRowsFor (advLedgerRuns c1LedgerA [c1RunA]) "x" = advRowsFor c1LedgerA "x" :=
  claim_C1_at_most_one_terminal "v" "x" c1LedgerV c1LedgerA [c1RunV] [c1RunA]
    (by decide) (by decide)

/-- Claim C7 (retry termination under block-until-resolved): fed the
scripted outcome sequence transient, transient, success, the refiner retry
loop makes exactly 3 calls and returns the success payload; fed a single
permanent input-too-large failure, it makes exactly 1 call and returns the
saturation sentinel without retrying. -/
theorem claim_C7_retry_termination :
    (refineLoop "item" [CallOut.raised "connection reset by peer",
        CallOut.raised "service unavailable",
        CallOut.ok { parsed := some [{ start := 0, stop := 2, text := "phaco step" }] }]).2
      = some (RefResp.body { parsed := some [{ start := 0, stop := 2, text := "phaco step" }] })
    ∧ callAttemptCount (refineLoop "item" [CallOut.raised "connection reset by peer",
        CallOut.raised "service unavailable",
        CallOut.ok { parsed := some [{ start := 0, stop := 2, text := "phaco step" }] }]).1 = 3
    ∧ (refineLoop "item" [CallOut.raised "Error 413: request payload too large"]).2
      = some RefResp.sentinel
    ∧ callAttemptCount
        (refineLoop "item" [CallOut.raised "Error 413: request payload too large"]).1 = 1 := by
  decide

/-- Claim C9 (join correctness): the cross-stage join keeps exactly the
pairs whose keys occur in both tables after text normalization; a key-
disjoint pair of tables is reported as a warning, not an error; and on the
concrete tables with numeric ids 1, 2, 3 joined against text ids 2, 3, 4
the result is exactly the rows for ids 2 and 3, each merging fields of
both sources. -/
theorem claim_C9_join_correctness :
    (∀ (log : List SumLogRow) (meta : List MetaRow) (l : SumLogRow) (m : MetaRow),
      (l, m) ∈ pdMergeInner log meta ↔
        l ∈ log ∧ m ∈ meta ∧ cellStr m.filename = cellStr l.video_name)
    ∧ (∀ (log : List SumLogRow) (meta : List MetaRow),
        (∀ l ∈ log, ∀ m ∈ meta, cellStr m.filename ≠ cellStr l.video_name) →
          create_dataset_info log meta = SumResult.emptyWarning)
    ∧ create_dataset_info
        [{ video_name := Cell.num 1, transcript_name := "a.txt", total_words := 10 },
         { video_name := Cell.num 2, transcript_name := "b.txt", total_words := 20 },
         { video_name := Cell.num 3, transcript_name := "c.txt", total_words := 30 }]
        [{ filename := Cell.txt "2", title := "T2", audio_filename := "A2",
           duration_seconds := 100, channel_name := "C2", url := "U2", download_date := "D2" },
         { filename := Cell.txt "3", title := "T3", audio_filename := "A3",
           duration_seconds := 200, channel_name := "C3", url := "U3", download_date := "D3" },
         { filename := Cell.txt "4", title := "T4", audio_filename := "A4",
           duration_seconds := 300, channel_name := "C4", url := "U4", download_date := "D4" }]
      = SumResult.written
        [{ title := "T2", video_name := "2", transcript_name := "b.txt", audio_name := "A2",
           duration_seconds := 100, word_count := 20, channel_name := "C2", url := "U2",
           download_name := "2", download_date := "D2" },
         { title := "T3", video_name := "3", transcript_name := "c.txt", audio_name := "A3",
           duration_seconds := 200, word_count := 30, channel_name := "C3", url := "U3",
           download_name := "3", download_date := "D3" }] := by
  refine ⟨pdMergeInner_mem, ?_, by decide⟩
  intro log meta hdisj
  have hnil : pdMergeInner log meta = [] := by
    rw [List.eq_nil_iff_forall_not_mem]
    intro p hp
    have hmem := (pdMergeInner_mem log meta p.1 p.2).mp hp
    exact hdisj p.1 hmem.1 p.2 hmem.2.1 hmem.2.2
  unfold create_dataset_info
  rw [hnil]
  rfl

/-- Witness for C9: a key-disjoint pair of concrete tables yields the
empty-merge warning. -/
theorem claim_C9_witness :
    create_dataset_info [{ video_name := Cell.num 7, transcript_name := "z.txt", total_words := 5 }]
      [{ filename := Cell.txt "9", title := "T", audio_filename := "A",
         duration_seconds := 1, channel_name := "C", url := "U", download_date := "D" }]
      = SumResult.emptyWarning :=
  claim_C9_join_correctness.2.1 _ _ (by decide)

theorem upperStr_ERROR : upperStr "ERROR" = "ERROR" := by decide

/-- Number of model calls (gatekeeper or generator) a VLM event list
contains for one item id. -/
def vlmCallsFor (evs : List VEvent) (id : String) : Nat :=
  (evs.filter (fun e => e = VEvent.gateCall id || e = VEvent.genCall id)).length

/-- Number of safety-analyst calls an adverse-event event list contains
for one item id. -/
def advCallsFor (evs : List AEvent) (id : String) : Nat :=
  (evs.filter (fun e => e = AEvent.detectCall id)).length

theorem vlmStep_skip_artifact (env : VlmEnv) (existingFiles processedIds : List String)
    (row : SummaryRow) (h : (get_stable_id row.video_name ++ ".jsonl") ∈ existingFiles) :
    vlmStep env existingFiles processedIds row = VlmOut.none := by
  unfold vlmStep
  dsimp only []
  split
  · rfl
  · rw [if_pos (by simpa using h)]

theorem vlmStep_skip_completed (env : VlmEnv) (existingFiles processedIds : List String)
    (row : SummaryRow) (h : get_stable_id row.video_name ∈ processedIds) :
    vlmStep env existingFiles processedIds row = VlmOut.none := by
  unfold vlmStep
  dsimp only []
  split
  · rfl
  · split
    · rfl
    · rw [if_pos (by simpa using h)]

theorem vlmStep_events_shape (env : VlmEnv) (existingFiles processedIds : List String)
    (row : SummaryRow) :
    ∀ e ∈ (vlmStep env existingFiles processedIds row).events,
      e = VEvent.gateCall (get_stable_id row.video_name)
      ∨ e = VEvent.genCall (get_stable_id row.video_name)
      ∨ e = VEvent.sleep 60 := by
  intro e he
  unfold vlmStep at he
  dsimp only [] at he
  repeat' split at he
  all_goals simp_all [VlmOut.none]

theorem vlmStep_attempted_shape (env : VlmEnv) (existingFiles processedIds : List String)
    (row : SummaryRow) :
    ∀ a ∈ (vlmStep env existingFiles processedIds row).attempted,
      a = get_stable_id row.video_name := by
  intro a ha
  unfold vlmStep at ha
  dsimp only [] at ha
  repeat' split at ha
  all_goals simp_all [VlmOut.none]

theorem vlm_artifact_no_touch (env : VlmEnv) (existingFiles processedIds : List String)
    (df : List SummaryRow) (id : String)
    (h : (id ++ ".jsonl") ∈ existingFiles) :
    vlmCallsFor (vlmItems env existingFiles processedIds df).events id = 0
    ∧ (vlmItems env existingFiles processedIds df).rows.filter
        (fun r => r.video_id = id) = []
    ∧ id ∉ (vlmItems env existingFiles processedIds df).attempted := by
  induction df with
  | nil => refine ⟨rfl, rfl, by simp [vlmItems, VlmOut.none]⟩
  | cons row rest ih =>
    by_cases hid : get_stable_id row.video_name = id
    · have hskip : vlmStep env existingFiles processedIds row = VlmOut.none :=
        vlmStep_skip_artifact env existingFiles processedIds row (hid ▸ h)
      refine ⟨?_, ?_, ?_⟩
      · show vlmCallsFor (VlmOut.events _) id = 0
        unfold vlmItems
        rw [hskip]
        unfold vlmCallsFor at ih ⊢
        simpa [VlmOut.none] using ih.1
      · unfold vlmItems
        rw [hskip]
        simpa [VlmOut.none] using ih.2.1
      · unfold vlmItems
        rw [hskip]
        simpa [VlmOut.none] using ih.2.2
    · refine ⟨?_, ?_, ?_⟩
      · unfold vlmItems vlmCallsFor
        rw [List.filter_append, List.length_append]
        have hz : ((vlmStep env existingFiles processedIds row).events.filter
            (fun e => e = VEvent.gateCall id || e = VEvent.genCall id)).length = 0 := by
          rw [List.length_eq_zero, List.filter_eq_nil_iff]
          intro e he
          rcases vlmStep_events_shape env existingFiles processedIds row e he with h1 | h1 | h1
            <;> subst h1 <;> simp [hid]
        rw [hz]
        simpa [vlmCallsFor] using ih.1
      · unfold vlmItems
        rw [List.filter_append]
        have hz : ((vlmStep env existingFiles processedIds row).rows.filter
            (fun r => decide (r.video_id = id))) = [] := by
          rw [List.filter_eq_nil_iff]
          intro r hr
          have := (vlmStep_rows_id env existingFiles processedIds row r hr).1
          simp [this, hid]
        rw [hz, List.nil_append]
        exact ih.2.1
      · unfold vlmItems
        dsimp only []
        rw [List.mem_append]
        rintro (hmem | hmem)
        · exact hid ((vlmStep_attempted_shape env existingFiles processedIds row id hmem).symm)
        · exact ih.2.2 hmem

theorem refineLoop_events_shape (basename : String) (script : List CallOut) :
    ∀ e ∈ (refineLoop basename script).1,
      e = REvent.callAttempt basename ∨ e = REvent.backoffSleep 10 := by
  induction script with
  | nil => intro e he; simp [refineLoop] at he
  | cons o rest ih =>
    intro e he
    unfold refineLoop at he
    split at he
    · simp only [List.mem_singleton] at he
      exact Or.inl he
    · simp only [List.mem_cons] at he
      rcases he with rfl | rfl | he
      · exact Or.inl rfl
      · exact Or.inr rfl
      · exact ih e he

theorem refinerStep_events_eq (env : RefEnv) (basename : String) :
    (refinerStep env basename).events = []
    ∨ (refinerStep env basename).events = (refineLoop basename (env.script basename)).1 := by
  unfold refinerStep
  dsimp only []
  repeat' split
  all_goals simp_all

theorem refinerStep_events_shape (env : RefEnv) (basename : String) :
    ∀ e ∈ (refinerStep env basename).events,
      e = REvent.callAttempt basename ∨ e = REvent.backoffSleep 10 := by
  intro e he
  rcases refinerStep_events_eq env basename with h1 | h1
  · rw [h1] at he
    simp at he
  · rw [h1] at he
    exact refineLoop_events_shape basename _ e he

theorem refinerItems_events_shape (env : RefEnv) (delay : Nat) (lastB : Option String)
    (l : List String) :
    ∀ e ∈ (refinerItems env delay lastB l).events,
      (∃ b ∈ l, e = REvent.callAttempt b) ∨ e = REvent.backoffSleep 10
        ∨ e = REvent.rateSleep delay := by
  induction l with
  | nil => intro e he; simp [refinerItems, RefOut.events] at he
  | cons b rest ih =>
    intro e he
    unfold RefOut.events refinerItems at he
    dsimp only [] at he
    split at he
    · simp only [List.flatten_cons, List.flatten_nil, List.append_nil] at he
      rcases refinerStep_events_shape env b e he with h1 | h1
      · exact Or.inl ⟨b, List.mem_cons_self b rest, h1⟩
      · exact Or.inr (Or.inl h1)
    · simp only [List.flatten_cons, List.mem_append] at he
      rcases he with (he | he) | he
      · rcases refinerStep_events_shape env b e he with h1 | h1
        · exact Or.inl ⟨b, List.mem_cons_self b rest, h1⟩
        · exact Or.inr (Or.inl h1)
      · split at he
        · simp at he
        · split at he
          · simp at he
          · simp only [List.mem_singleton] at he
            exact Or.inr (Or.inr he)
      · rcases ih e he with ⟨b2, hb2, h1⟩ | h1 | h1
        · exact Or.inl ⟨b2, List.mem_cons_of_mem b hb2, h1⟩
        · exact Or.inr (Or.inl h1)
        · exact Or.inr (Or.inr h1)

theorem refinerItems_attempted_sub (env : RefEnv) (delay : Nat) (lastB : Option String)
    (l : List String) :
    ∀ b ∈ (refinerItems env delay lastB l).attempted, b ∈ l := by
  induction l with
  | nil => intro b hb; simp [refinerItems] at hb
  | cons x rest ih =>
    intro b hb
    unfold refinerItems at hb
    dsimp only [] at hb
    split at hb
    · simp only [List.mem_singleton] at hb
      simp [hb]
    · simp only [List.mem_cons] at hb
      rcases hb with rfl | hb
      · exact List.mem_cons_self _ _
      · exact List.mem_cons_of_mem x (ih b hb)

theorem mem_sortDedup {x : String} {l : List String} : x ∈ sortDedup l ↔ x ∈ l := by
  unfold sortDedup
  rw [(List.perm_insertionSort strLe l.dedup).mem_iff]
  exact List.mem_dedup

theorem refinerWorkSet_not_done (inputListing outListing : List String) (maxFiles : Nat)
    (b : String)
    (h : b ∈ ((outListing.filter (fun f => endsWithStr f ".txt")).map stripExt)) :
    b ∉ refinerWorkSet inputListing outListing maxFiles := by
  intro hmem
  unfold refinerWorkSet at hmem
  dsimp only [] at hmem
  have h2 := mem_sortDedup.mp (List.mem_of_mem_take hmem)
  have h3 := (List.mem_filter.mp h2).2
  have hb := List.mem_dedup.mpr h
  rw [← List.elem_iff] at hb
  rw [Bool.not_eq_true'] at h3
  rw [List.contains] at h3
  rw [hb] at h3
  exact absurd h3 (by simp)

theorem run_refiner_eq (env : RefEnv) (inputListing outListing : List String)
    (delay maxFiles : Nat) :
    run_refiner_pipeline env inputListing outListing delay maxFiles
      = refinerItems env delay (refinerWorkSet inputListing outListing maxFiles).getLast?
          (refinerWorkSet inputListing outListing maxFiles) := rfl

theorem refiner_no_touch (env : RefEnv) (inputListing outListing : List String)
    (delay maxFiles : Nat) (b : String)
    (hb : b ∉ refinerWorkSet inputListing outListing maxFiles) :
    b ∉ (run_refiner_pipeline env inputListing outListing delay maxFiles).attempted
    ∧ refCallsFor (run_refiner_pipeline env inputListing outListing delay maxFiles) b = 0 := by
  rw [run_refiner_eq]
  constructor
  · intro hmem
    exact hb (refinerItems_attempted_sub env delay _ _ b hmem)
  · unfold refCallsFor RefOut.events
    rw [List.length_eq_zero, List.filter_eq_nil_iff]
    intro e he
    simp only [decide_eq_true_eq]
    intro hcall
    rcases refinerItems_events_shape env delay _ _ e he with ⟨b2, hb2, h1⟩ | h1 | h1
      <;> rw [hcall] at h1
    · rw [REvent.callAttempt.injEq] at h1
      exact hb (h1 ▸ hb2)
    · exact absurd h1 (by simp)
    · exact absurd h1 (by simp)

/-- Claim C3, amended (dual-witness resume): for the refiner and vlm
stages the per-item artifact alone excludes an item from a new run — the
vlm stage neither calls, logs, nor attempts an id whose artifact file is
in the output listing, and the refiner excludes from its work set any stem
with a refined text file, attempting and calling nothing for it.  The
adverse-event stage is exempted: its resume check reads only its log, so
an artifact without a ledger row does not prevent reprocessing there (see
the counterexample). -/
theorem claim_C3_dual_witness_resume
    (env : VlmEnv) (ledgerV : List VlmLogRow) (files : List String)
    (df : List SummaryRow) (id : String)
    (renv : RefEnv) (inputListing outListing : List String) (delay maxFiles : Nat)
    (b : String)
    (hart : (id ++ ".jsonl") ∈ files)
    (hb : b ∈ (outListing.filter (fun f => endsWithStr f ".txt")).map stripExt) :
    (vlmCallsFor (run_vlm_generation_pipeline env ledgerV files df).events id = 0
      ∧ vlmRowsFor (run_vlm_generation_pipeline env ledgerV files df).rows id = []
      ∧ id ∉ (run_vlm_generation_pipeline env ledgerV files df).attempted)
    ∧ (b ∉ refinerWorkSet inputListing outListing maxFiles
      ∧ b ∉ (run_refiner_pipeline renv inputListing outListing delay maxFiles).attempted
      ∧ refCallsFor (run_refiner_pipeline renv inputListing outListing delay maxFiles) b = 0) := by
  have hv := vlm_artifact_no_touch env files (vlmCompletedIds ledgerV) df id hart
  have hw := refinerWorkSet_not_done inputListing outListing maxFiles b hb
  have hr := refiner_no_touch renv inputListing outListing delay maxFiles b hw
  exact ⟨⟨hv.1, hv.2.1, hv.2.2⟩, hw, hr.1, hr.2⟩

/-- Witness for the amended C3 at a concrete state: artifact `v.jsonl`
present for the vlm stage and refined text `a.txt` present for the
refiner; neither item is attempted, called, or logged by a new run that
offers it. -/
theorem claim_C3_witness :
    (vlmCallsFor (run_vlm_generation_pipeline c1RunV.env [] ["v.jsonl"] c1RunV.df).events "v" = 0
      ∧ vlmRowsFor (run_vlm_generation_pipeline c1RunV.env [] ["v.jsonl"] c1RunV.df).rows "v" = []
      ∧ "v" ∉ (run_vlm_generation_pipeline c1RunV.env [] ["v.jsonl"] c1RunV.df).attempted)
    ∧ ("a" ∉ refinerWorkSet ["a.json"] ["a.txt"] 10
      ∧ "a" ∉ (run_refiner_pipeline
          { load := fun _ => some [{ start := 0, stop := 2, text := "hi" }],
            script := fun _ => [CallOut.ok { parsed := some [] }],
            videosListing := [] } ["a.json"] ["a.txt"] 3 10).attempted
      ∧ refCallsFor (run_refiner_pipeline
          { load := fun _ => some [{ start := 0, stop := 2, text := "hi" }],
            script := fun _ => [CallOut.ok { parsed := some [] }],
            videosListing := [] } ["a.json"] ["a.txt"] 3 10) "a" = 0) :=
  claim_C3_dual_witness_resume c1RunV.env [] ["v.jsonl"] c1RunV.df "v"
    { load := fun _ => some [{ start := 0, stop := 2, text := "hi" }],
      script := fun _ => [CallOut.ok { parsed := some [] }],
      videosListing := [] } ["a.json"] ["a.txt"] 3 10 "a"
    (by decide) (by decide)

/-- Counterexample to C3 as stated: the adverse-event stage does not honor
the artifact witness.  Take the state in which the artifact `x.jsonl`
already sits in the output directory while the log holds no row for `x`.
The run never lists its output directory (the resume check of lines
183-189 consults only the log), so its behavior is the same whatever the
output directory holds: offered `x.jsonl` as input it calls the analyst
once for `x` and appends a row for `x`, instead of excluding `x` and
making no call as the claim requires. -/
theorem claim_C3_counterexample :
    advRowsFor ([] : List AdvLogRow) "x" = []
    ∧ advCallsFor (run_adverse_event_pipeline
        { readF := fun _ => ReadOut.ok
            { video_id := some "x", original_filename := some "x.mp4",
              video_url := some "u", video_title := some "t", download_date := some "d",
              vlm_annotations := [sampleStep] },
          detect := fun _ => some [] } [] ["x.jsonl"]).events "x" = 1
    ∧ (run_adverse_event_pipeline
        { readF := fun _ => ReadOut.ok
            { video_id := some "x", original_filename := some "x.mp4",
              video_url := some "u", video_title := some "t", download_date := some "d",
              vlm_annotations := [sampleStep] },
          detect := fun _ => some [] } [] ["x.jsonl"]).rows
      = [{ video_id := "x", status := .NO_EVENT, event_count := 0 }] := by
  decide

theorem vlmStep_invalid (env : VlmEnv) (existingFiles processedIds : List String)
    (row : SummaryRow) (h : row.video_name = "" ∨ row.url = "") :
    vlmStep env existingFiles processedIds row = VlmOut.none := by
  unfold vlmStep
  dsimp only []
  rw [if_pos (by simpa using h)]

/-- Claim C2, amended (idempotence of a stage run): a second vlm run in
which every candidate with a usable name and url already has its artifact
file or a terminal (ACCEPTED/REJECTED) log row does nothing at all — no
events (hence no collaborator calls), no log rows, no files, no attempted
items.  For the refiner the ledger half of the disjunction must be
dropped: its resume check reads only the output directory, so the
idempotence guarantee it actually provides is that a second run in which
every input stem already has its refined text artifact does nothing.  A
refiner candidate covered only by a terminal ledger row is re-attempted
(see the counterexample). -/
theorem claim_C2_idempotence
    (env : VlmEnv) (ledger : List VlmLogRow) (files : List String) (df : List SummaryRow)
    (renv : RefEnv) (inputListing outListing : List String) (delay maxFiles : Nat)
    (hcov : ∀ row ∈ df, row.video_name ≠ "" → row.url ≠ "" →
      (get_stable_id row.video_name ++ ".jsonl") ∈ files
        ∨ get_stable_id row.video_name ∈ vlmCompletedIds ledger)
    (hsub : ∀ b ∈ (inputListing.filter (fun f => endsWithStr f ".json")).map stripExt,
      b ∈ (outListing.filter (fun f => endsWithStr f ".txt")).map stripExt) :
    run_vlm_generation_pipeline env ledger files df = VlmOut.none
    ∧ run_refiner_pipeline renv inputListing outListing delay maxFiles
      = { blocks := [], rows := [], txts := [], attempted := [], stalled := false } := by
  constructor
  · unfold run_vlm_generation_pipeline
    induction df with
    | nil => rfl
    | cons row rest ih =>
      have hstep : vlmStep env files (vlmCompletedIds ledger) row = VlmOut.none := by
        by_cases hval : row.video_name = "" ∨ row.url = ""
        · exact vlmStep_invalid env files _ row hval
        · push_neg at hval
          rcases hcov row (List.mem_cons_self _ _) hval.1 hval.2 with hc | hc
          · exact vlmStep_skip_artifact env files _ row hc
          · exact vlmStep_skip_completed env files _ row hc
      have hrest : vlmItems env files (vlmCompletedIds ledger) rest = VlmOut.none :=
        ih (fun r hr => hcov r (List.mem_cons_of_mem _ hr))
      show vlmItems env files (vlmCompletedIds ledger) (row :: rest) = VlmOut.none
      unfold vlmItems
      rw [hstep, hrest]
      rfl
  · have hws : refinerWorkSet inputListing outListing maxFiles = [] := by
      unfold refinerWorkSet
      dsimp only []
      have hfil : ((inputListing.filter (fun f => endsWithStr f ".json")).map
          stripExt).dedup.filter
            (fun b => !((outListing.filter (fun f => endsWithStr f ".txt")).map
              stripExt).dedup.contains b) = [] := by
        rw [List.filter_eq_nil_iff]
        intro b hbmem
        have hdone := List.mem_dedup.mpr (hsub b (List.mem_dedup.mp hbmem))
        rw [← List.elem_iff] at hdone
        rw [Bool.not_eq_true, Bool.not_eq_false']
        exact hdone
      rw [hfil]
      simp [sortDedup]
    rw [run_refiner_eq, hws]
    rfl

/-- Witness for the amended C2: one vlm candidate covered by its artifact
and one covered by a terminal row, plus a refiner input whose refined text
exists — the second runs do nothing. -/
theorem claim_C2_witness :
    run_vlm_generation_pipeline c1RunV.env c1LedgerV ["w.jsonl"]
      [{ video_name := "w.mp4", url := "u", title := "t", download_date := "d",
         transcript_name := "w.txt" },
       { video_name := "v.mp4", url := "u", title := "t", download_date := "d",
         transcript_name := "v.txt" }] = VlmOut.none
    ∧ run_refiner_pipeline
        { load := fun _ => some [{ start := 0, stop := 2, text := "hi" }],
          script := fun _ => [CallOut.ok { parsed := some [] }],
          videosListing := [] } ["a.json"] ["a.txt"] 3 10
      = { blocks := [], rows := [], txts := [], attempted := [], stalled := false } :=
  claim_C2_idempotence c1RunV.env c1LedgerV ["w.jsonl"]
    [{ video_name := "w.mp4", url := "u", title := "t", download_date := "d",
       transcript_name := "w.txt" },
     { video_name := "v.mp4", url := "u", title := "t", download_date := "d",
       transcript_name := "v.txt" }]
    { load := fun _ => some [{ start := 0, stop := 2, text := "hi" }],
      script := fun _ => [CallOut.ok { parsed := some [] }],
      videosListing := [] } ["a.json"] ["a.txt"] 3 10
    (by decide) (by decide)

/-- Counterexample to C2 as stated: a refiner state in which the single
candidate `a` has a terminal (success) ledger row but no artifact.  Every
candidate then has a terminal ledger row or an existing artifact, yet the
second run attempts `a` again: one collaborator call and one appended log
row instead of zero. -/
theorem claim_C2_counterexample :
    refinerCompletedIds
      [{ video_name := "NOT_FOUND", transcript_name := "a.txt", total_characters := 5,
         total_words := 2, video_found := false, success := true }]
      = ["a"]
    ∧ (run_refiner_pipeline
        { load := fun _ => some [{ start := 0, stop := 2, text := "hi" }],
          script := fun _ => [CallOut.ok { parsed := some [{ start := 0, stop := 2, text := "hi" }] }],
          videosListing := [] } ["a.json"] [] 3 10).rows.length = 1
    ∧ refCallsFor (run_refiner_pipeline
        { load := fun _ => some [{ start := 0, stop := 2, text := "hi" }],
          script := fun _ => [CallOut.ok { parsed := some [{ start := 0, stop := 2, text := "hi" }] }],
          videosListing := [] } ["a.json"] [] 3 10) "a" = 1 := by
  decide

theorem strContains_iff {l : List String} {x : String} : l.contains x = true ↔ x ∈ l :=
  List.elem_iff

/-- Candidate ids a vlm run can work on: the stable ids of the summary
rows with a usable name and url, in summary order (vlm_generator.py lines
249-259). -/
def vlmCandidateIds (df : List SummaryRow) : List String :=
  (df.filter (fun row => !(row.video_name == "") && !(row.url == ""))).map
    (fun row => get_stable_id row.video_name)

/-- Stems of the transcript JSON files a refiner run enumerates
(refiner.py line 119). -/
def refinerRawStems (inputListing : List String) : List String :=
  ((inputListing.filter (fun f => endsWithStr f ".json")).map stripExt).dedup

/-- Stems of the refined text artifacts already present (refiner.py line
120). -/
def refinerDoneStems (outListing : List String) : List String :=
  ((outListing.filter (fun f => endsWithStr f ".txt")).map stripExt).dedup

theorem refinerWorkSet_eq (inputListing outListing : List String) (maxFiles : Nat) :
    refinerWorkSet inputListing outListing maxFiles
      = (sortDedup ((refinerRawStems inputListing).filter
          (fun b => !(refinerDoneStems outListing).contains b))).take maxFiles := rfl

theorem vlmStep_attempted_eq (env : VlmEnv) (existingFiles processedIds : List String)
    (row : SummaryRow) :
    (vlmStep env existingFiles processedIds row).attempted =
      if (!(row.video_name == "") && !(row.url == ""))
          && (!existingFiles.contains (get_stable_id row.video_name ++ ".jsonl")
            && !processedIds.contains (get_stable_id row.video_name))
        then [get_stable_id row.video_name] else [] := by
  unfold vlmStep
  dsimp only []
  repeat' split
  all_goals simp_all [VlmOut.none]

theorem vlmItems_attempted_eq (env : VlmEnv) (existingFiles processedIds : List String)
    (df : List SummaryRow) :
    (vlmItems env existingFiles processedIds df).attempted
      = ((df.filter (fun row => !(row.video_name == "") && !(row.url == ""))).map
          (fun row => get_stable_id row.video_name)).filter
            (fun v => !existingFiles.contains (v ++ ".jsonl") && !processedIds.contains v) := by
  induction df with
  | nil => rfl
  | cons row rest ih =>
    show (vlmStep env existingFiles processedIds row).attempted ++ _ = _
    rw [vlmStep_attempted_eq, ih, List.filter_cons]
    by_cases h1 : (!(row.video_name == "") && !(row.url == "")) = true
    · rw [if_pos h1, List.map_cons, List.filter_cons]
      by_cases h2 : (!existingFiles.contains (get_stable_id row.video_name ++ ".jsonl")
          && !processedIds.contains (get_stable_id row.video_name)) = true
      · rw [if_pos h2, if_pos (Bool.and_eq_true_iff.mpr ⟨h1, h2⟩)]
        rfl
      · rw [if_neg h2, if_neg (fun hc => h2 (Bool.and_eq_true_iff.mp hc).2)]
        rfl
    · rw [if_neg h1, if_neg (fun hc => h1 (Bool.and_eq_true_iff.mp hc).1)]
      exact List.nil_append _

theorem refinerItems_attempted_eq (env : RefEnv) (delay : Nat) (lastB : Option String)
    (l : List String) (hres : ∀ b ∈ l, (refinerStep env b).stalled = false) :
    (refinerItems env delay lastB l).attempted = l := by
  induction l with
  | nil => rfl
  | cons b rest ih =>
    unfold refinerItems
    dsimp only []
    rw [if_neg (by rw [hres b (List.mem_cons_self _ _)]; exact Bool.false_ne_true)]
    dsimp only []
    rw [ih (fun x hx => hres x (List.mem_cons_of_mem _ hx))]

/-- Claim C4, amended (resume planner): the work set of each stage is a
planner expression, but not the one the claim writes for the refiner.  For
the vlm stage the attempted work set equals candidates minus
existing-artifact ids minus completed ids, in candidate order, with no
cap.  For the refiner stage the work set equals the first `max_files`
elements of the sorted candidate stems minus the existing-artifact stems,
in sorted candidate order — the completed ids of its ledger are never
subtracted (the empty list is passed to the planner expression), which the
counterexample shows to diverge from the claim; the work set is sorted,
and with all call scripts resolving the refiner attempts exactly its work
set. -/
theorem claim_C4_resume_planner
    (env : VlmEnv) (ledger : List VlmLogRow) (files : List String) (df : List SummaryRow)
    (renv : RefEnv) (inputListing outListing : List String) (delay maxFiles : Nat)
    (hres : ∀ b ∈ refinerWorkSet inputListing outListing maxFiles,
      (refinerStep renv b).stalled = false) :
    (run_vlm_generation_pipeline env ledger files df).attempted
      = specPlanWorkSet (vlmCandidateIds df) (vlmCompletedIds ledger)
          ((vlmCandidateIds df).filter (fun v => files.contains (v ++ ".jsonl")))
    ∧ refinerWorkSet inputListing outListing maxFiles
      = (specPlanWorkSet (sortDedup (refinerRawStems inputListing)) []
          (refinerDoneStems outListing)).take maxFiles
    ∧ List.Sorted strLe (refinerWorkSet inputListing outListing maxFiles)
    ∧ (run_refiner_pipeline renv inputListing outListing delay maxFiles).attempted
      = refinerWorkSet inputListing outListing maxFiles := by
  refine ⟨?_, ?_, ?_, ?_⟩
  · show (vlmItems env files (vlmCompletedIds ledger) df).attempted = _
    rw [vlmItems_attempted_eq]
    unfold specPlanWorkSet vlmCandidateIds
    apply List.filter_congr
    intro v hv
    have hart : (((df.filter (fun row => !(row.video_name == "") && !(row.url == ""))).map
        (fun row => get_stable_id row.video_name)).filter
          (fun x => files.contains (x ++ ".jsonl"))).contains v
        = files.contains (v ++ ".jsonl") := by
      cases hp : files.contains (v ++ ".jsonl") with
      | true => exact strContains_iff.mpr (List.mem_filter.mpr ⟨hv, hp⟩)
      | false =>
        cases hc : (((df.filter (fun row => !(row.video_name == "") && !(row.url == ""))).map
            (fun row => get_stable_id row.video_name)).filter
              (fun x => files.contains (x ++ ".jsonl"))).contains v with
        | false => rfl
        | true =>
          have h3 := (List.mem_filter.mp (strContains_iff.mp hc)).2
          rw [hp] at h3
          exact absurd h3 Bool.false_ne_true
    rw [hart]
    exact Bool.and_comm _ _
  · rw [refinerWorkSet_eq, sortDedup_filter]
    rfl
  · rw [refinerWorkSet_eq]
    unfold sortDedup
    exact (List.sorted_insertionSort strLe _).sublist (List.take_sublist _ _)
  · rw [run_refiner_eq]
    exact refinerItems_attempted_eq renv delay _ _ hres

/-- A refiner oracle whose every item loads and resolves successfully. -/
def okRefEnv : RefEnv :=
  { load := fun _ => some [{ start := 0, stop := 2, text := "hi" }],
    script := fun _ => [CallOut.ok { parsed := some [{ start := 0, stop := 2, text := "hi" }] }],
    videosListing := [] }

/-- Witness for the amended C4 at a concrete state. -/
theorem claim_C4_witness :
    (run_vlm_generation_pipeline c1RunV.env c1LedgerV ["w.jsonl"] c1RunV.df).attempted
      = specPlanWorkSet (vlmCandidateIds c1RunV.df) (vlmCompletedIds c1LedgerV)
          ((vlmCandidateIds c1RunV.df).filter (fun v => ["w.jsonl"].contains (v ++ ".jsonl")))
    ∧ refinerWorkSet ["a.json"] [] 10
      = (specPlanWorkSet (sortDedup (refinerRawStems ["a.json"])) []
          (refinerDoneStems [])).take 10
    ∧ List.Sorted strLe (refinerWorkSet ["a.json"] [] 10)
    ∧ (run_refiner_pipeline okRefEnv ["a.json"] [] 3 10).attempted
      = refinerWorkSet ["a.json"] [] 10 :=
  claim_C4_resume_planner c1RunV.env c1LedgerV ["w.jsonl"] c1RunV.df
    okRefEnv ["a.json"] [] 3 10 (by decide)

/-- Counterexample to C4 as stated: take the refiner state whose single
candidate stem `a` has a terminal ledger row and no artifact.  The
planner expression the claim demands — candidates minus completed ids
minus artifact ids — is empty, but the run attempts `a`: the refiner
never subtracts its completed ids. -/
theorem claim_C4_counterexample :
    specPlanWorkSet (sortDedup (refinerRawStems ["a.json"]))
        (refinerCompletedIds
          [{ video_name := "NOT_FOUND", transcript_name := "a.txt", total_characters := 5,
             total_words := 2, video_found := false, success := true }])
        (refinerDoneStems []) = []
    ∧ (run_refiner_pipeline okRefEnv ["a.json"] [] 3 10).attempted = ["a"] := by
  decide

/-- Claim C5, amended (input-too-large): when the call script for an item
is a single exception carrying a saturation marker, the refiner makes
exactly one call for the item in this run (the retry loop accepts the
sentinel instead of retrying), records the failure as a log row with
success false, writes the raw response but no text artifact, and the run
continues (not stalled).  However, the item is not excluded afterwards:
with its transcript still listed and no artifact, it is again a member of
the next run's work set (shown here whenever the cap does not cut the
work set), so the identical oversized input is re-attempted on the next
run — contrary to the final part of the claim (see the counterexample). -/
theorem claim_C5_input_too_large
    (env : RefEnv) (b msg : String) (segs : List RSeg)
    (inputListing2 outListing2 : List String) (maxFiles2 : Nat)
    (hscript : env.script b = [CallOut.raised msg])
    (hmark : hasSatMarker msg = true)
    (hload : env.load b = some segs) (hsegs : segs ≠ [])
    (hraw : b ∈ refinerRawStems inputListing2)
    (hdone : b ∉ refinerDoneStems outListing2)
    (hcap : (sortDedup ((refinerRawStems inputListing2).filter
      (fun x => !(refinerDoneStems outListing2).contains x))).length ≤ maxFiles2) :
    refinerStep env b =
      { events := [REvent.callAttempt b]
        row := some { video_name := (find_matching_video env.videosListing b).1,
                      transcript_name := b ++ ".txt", total_characters := 0,
                      total_words := 0,
                      video_found := (find_matching_video env.videosListing b).2,
                      success := false }
        txtArtifact := none, fullResponse := some b, stalled := false, skipped := false }
    ∧ b ∈ refinerWorkSet inputListing2 outListing2 maxFiles2 := by
  constructor
  · have hloop : refineLoop b [CallOut.raised msg]
        = ([REvent.callAttempt b], some RefResp.sentinel) := by
      unfold refineLoop refine_with_llm
      dsimp only []
      rw [if_pos hmark]
    unfold refinerStep
    rw [hload]
    dsimp only []
    rw [if_neg (by simp only [List.isEmpty_iff]; exact hsegs)]
    rw [hscript, hloop]
    rfl
  · rw [refinerWorkSet_eq, List.take_of_length_le hcap]
    apply mem_sortDedup.mpr
    apply List.mem_filter.mpr
    refine ⟨hraw, ?_⟩
    rw [Bool.not_eq_true']
    cases hcc : (refinerDoneStems outListing2).contains b with
    | false => rfl
    | true => exact absurd (strContains_iff.mp hcc) hdone

/-- Witness for the amended C5 at a concrete state: item `a` with a
context-limit failure script is called once, logged as a failure, left
without artifact, and reappears in the next run's work set. -/
theorem claim_C5_witness :
    refinerStep
      { load := fun _ => some [{ start := 0, stop := 2, text := "hi" }],
        script := fun _ => [CallOut.raised "Error: context length limit exceeded"],
        videosListing := [] } "a" =
      { events := [REvent.callAttempt "a"]
        row := some { video_name := "NOT_FOUND", transcript_name := "a.txt",
                      total_characters := 0, total_words := 0,
                      video_found := false, success := false }
        txtArtifact := none, fullResponse := some "a", stalled := false, skipped := false }
    ∧ "a" ∈ refinerWorkSet ["a.json"] [] 10 := by
  have h := claim_C5_input_too_large
    { load := fun _ => some [{ start := 0, stop := 2, text := "hi" }],
      script := fun _ => [CallOut.raised "Error: context length limit exceeded"],
      videosListing := [] }
    "a" "Error: context length limit exceeded" [{ start := 0, stop := 2, text := "hi" }]
    ["a.json"] [] 10
    (by decide) (by decide) (by decide) (by decide) (by decide) (by decide) (by decide)
  exact h

/-- Counterexample to C5 as stated: a two-run refiner scenario on the
oversized item `a`.  The first run makes one call, receives the
saturation sentinel, logs a failure row and writes no text artifact.  The
second run, whose output listing is the first run's artifacts (none), has
the identical unchanged input back in its work set and calls the
collaborator for it again — the code auto-retries the identical oversized
input on the next run. -/
theorem claim_C5_counterexample :
    (run_refiner_pipeline
      { load := fun _ => some [{ start := 0, stop := 2, text := "hi" }],
        script := fun _ => [CallOut.raised "Error: context length limit exceeded"],
        videosListing := [] } ["a.json"] [] 3 10).txts = []
    ∧ refCallsFor (run_refiner_pipeline
      { load := fun _ => some [{ start := 0, stop := 2, text := "hi" }],
        script := fun _ => [CallOut.raised "Error: context length limit exceeded"],
        videosListing := [] } ["a.json"] [] 3 10) "a" = 1
    ∧ (run_refiner_pipeline
      { load := fun _ => some [{ start := 0, stop := 2, text := "hi" }],
        script := fun _ => [CallOut.raised "Error: context length limit exceeded"],
        videosListing := [] } ["a.json"]
      ((run_refiner_pipeline
        { load := fun _ => some [{ start := 0, stop := 2, text := "hi" }],
          script := fun _ => [CallOut.raised "Error: context length limit exceeded"],
          videosListing := [] } ["a.json"] [] 3 10).txts.map (fun t => t ++ ".txt"))
      3 10).attempted = ["a"]
    ∧ refCallsFor (run_refiner_pipeline
      { load := fun _ => some [{ start := 0, stop := 2, text := "hi" }],
        script := fun _ => [CallOut.raised "Error: context length limit exceeded"],
        videosListing := [] } ["a.json"]
      ((run_refiner_pipeline
        { load := fun _ => some [{ start := 0, stop := 2, text := "hi" }],
          script := fun _ => [CallOut.raised "Error: context length limit exceeded"],
          videosListing := [] } ["a.json"] [] 3 10).txts.map (fun t => t ++ ".txt"))
      3 10) "a" = 1 := by
  decide

/-- Is this event the between-item rate-limit sleep? -/
def isRateSleep : REvent → Bool
  | REvent.rateSleep _ => true
  | _ => false

/-- Number of rate-limit sleeps of a refiner run (the site of refiner.py
line 176 only; backoff sleeps are counted separately). -/
def rateSleepTally (o : RefOut) : Nat := (o.events.filter isRateSleep).length

/-- Number of sleep events of a VLM event list. -/
def vlmSleepCount (evs : List VEvent) : Nat :=
  (evs.filter (fun e => match e with | VEvent.sleep _ => true | _ => false)).length

/-- Number of generator calls of a VLM event list. -/
def vlmGenCount (evs : List VEvent) : Nat :=
  (evs.filter (fun e => match e with | VEvent.genCall _ => true | _ => false)).length

theorem refinerStep_no_rateSleep (env : RefEnv) (b : String) :
    (refinerStep env b).events.filter isRateSleep = [] := by
  rw [List.filter_eq_nil_iff]
  intro e he
  rcases refinerStep_events_shape env b e he with h1 | h1 <;> rw [h1] <;> simp [isRateSleep]

theorem ne_some_getLast?_of_nodup {b : String} {rest : List String}
    (hnd : (b :: rest).Nodup) : ¬ some b = rest.getLast? := by
  intro h
  have hmem := List.mem_of_getLast?_eq_some h.symm
  exact (List.nodup_cons.mp hnd).1 hmem

theorem refinerItems_rateSleep_count (env : RefEnv) (delay : Nat) :
    ∀ (l : List String), l.Nodup →
      (∀ b ∈ l, (refinerStep env b).stalled = false) →
      (∀ b ∈ l, (refinerStep env b).skipped = false) →
      ((refinerItems env delay l.getLast? l).events.filter isRateSleep).length
        = l.length - 1
  | [], _, _, _ => rfl
  | [b], _, hres, _ => by
    unfold refinerItems RefOut.events
    dsimp only []
    rw [if_neg (by rw [hres b (List.mem_cons_self _ _)]; exact Bool.false_ne_true)]
    rw [List.getLast?_singleton, if_pos rfl, ite_self]
    simp only [refinerItems, List.flatten_cons, List.flatten_nil, List.append_nil]
    rw [refinerStep_no_rateSleep]
    rfl
  | b :: r :: rs, hnd, hres, hproc => by
    unfold refinerItems RefOut.events
    dsimp only []
    rw [if_neg (by rw [hres b (List.mem_cons_self _ _)]; exact Bool.false_ne_true)]
    rw [List.getLast?_cons_cons]
    rw [if_neg (ne_some_getLast?_of_nodup hnd)]
    rw [if_neg (by rw [hproc b (List.mem_cons_self _ _)]; exact Bool.false_ne_true)]
    simp only [List.flatten_cons, List.filter_append, List.length_append]
    rw [refinerStep_no_rateSleep]
    have ih := refinerItems_rateSleep_count env delay (r :: rs)
      (List.nodup_cons.mp hnd).2 (fun x hx => hres x (List.mem_cons_of_mem _ hx))
      (fun x hx => hproc x (List.mem_cons_of_mem _ hx))
    unfold RefOut.events at ih
    rw [ih]
    simp [isRateSleep]
    omega

theorem refinerItems_blocks_ne_nil (env : RefEnv) (delay : Nat) (lastB : Option String)
    (b : String) (rest : List String) :
    (refinerItems env delay lastB (b :: rest)).blocks ≠ [] := by
  unfold refinerItems
  dsimp only []
  split <;> simp

theorem refinerItems_last_block (env : RefEnv) (delay : Nat) :
    ∀ (l : List String), l.Nodup →
      (∀ b ∈ l, (refinerStep env b).stalled = false) →
      ∀ blk, (refinerItems env delay l.getLast? l).blocks.getLast? = some blk →
        blk.filter isRateSleep = []
  | [], _, _ => by
    intro blk hblk
    simp [refinerItems] at hblk
  | [b], _, hres => by
    intro blk hblk
    unfold refinerItems at hblk
    dsimp only [] at hblk
    rw [if_neg (by rw [hres b (List.mem_cons_self _ _)]; exact Bool.false_ne_true)] at hblk
    rw [List.getLast?_singleton, if_pos rfl, ite_self] at hblk
    simp only [refinerItems, List.append_nil, List.getLast?_singleton,
      Option.some.injEq] at hblk
    rw [← hblk]
    exact refinerStep_no_rateSleep env b
  | b :: r :: rs, hnd, hres => by
    intro blk hblk
    unfold refinerItems at hblk
    dsimp only [] at hblk
    rw [if_neg (by rw [hres b (List.mem_cons_self _ _)]; exact Bool.false_ne_true)] at hblk
    rw [List.getLast?_cons_cons] at hblk
    have hne := refinerItems_blocks_ne_nil env delay ((r :: rs).getLast?) r rs
    rcases hx : (refinerItems env delay ((r :: rs).getLast?) (r :: rs)).blocks with _ | ⟨y, ys⟩
    · exact absurd hx hne
    · rw [hx] at hblk
      rw [List.getLast?_cons_cons] at hblk
      rw [← hx] at hblk
      exact refinerItems_last_block env delay (r :: rs)
        (List.nodup_cons.mp hnd).2 (fun x hx2 => hres x (List.mem_cons_of_mem _ hx2))
        blk hblk

theorem vlmStep_events_eq (env : VlmEnv) (existingFiles processedIds : List String)
    (row : SummaryRow) :
    (vlmStep env existingFiles processedIds row).events = []
    ∨ (vlmStep env existingFiles processedIds row).events
      = [VEvent.gateCall (get_stable_id row.video_name)]
    ∨ (vlmStep env existingFiles processedIds row).events
      = [VEvent.gateCall (get_stable_id row.video_name),
         VEvent.genCall (get_stable_id row.video_name), VEvent.sleep 60] := by
  unfold vlmStep
  dsimp only []
  repeat' split
  all_goals simp_all [VlmOut.none]

theorem vlmItems_sleep_eq_gen (env : VlmEnv) (existingFiles processedIds : List String)
    (df : List SummaryRow) :
    vlmSleepCount (vlmItems env existingFiles processedIds df).events
      = vlmGenCount (vlmItems env existingFiles processedIds df).events := by
  induction df with
  | nil => rfl
  | cons row rest ih =>
    show vlmSleepCount ((vlmStep env existingFiles processedIds row).events ++ _)
      = vlmGenCount ((vlmStep env existingFiles processedIds row).events ++ _)
    unfold vlmSleepCount vlmGenCount at ih ⊢
    rw [List.filter_append, List.filter_append, List.length_append, List.length_append, ih]
    rcases vlmStep_events_eq env existingFiles processedIds row with h1 | h1 | h1 <;>
      rw [h1] <;> rfl

theorem vlmItems_sleep_sixty (env : VlmEnv) (existingFiles processedIds : List String)
    (df : List SummaryRow) :
    ∀ e ∈ (vlmItems env existingFiles processedIds df).events,
      (match e with | VEvent.sleep _ => true | _ => false) = true → e = VEvent.sleep 60 := by
  induction df with
  | nil => intro e he; simp [vlmItems, VlmOut.none] at he
  | cons row rest ih =>
    intro e he hs
    rcases List.mem_append.mp he with he | he
    · rcases vlmStep_events_eq env existingFiles processedIds row with h1 | h1 | h1 <;>
        rw [h1] at he
      · simp at he
      · rw [List.mem_singleton] at he
        rw [he] at hs
        simp at hs
      · rcases (by simpa using he :
            e = VEvent.gateCall (get_stable_id row.video_name)
            ∨ e = VEvent.genCall (get_stable_id row.video_name)
            ∨ e = VEvent.sleep 60) with rfl | rfl | rfl
        · simp at hs
        · simp at hs
        · rfl
    · exact ih e he hs

/-- Claim C6, amended (rate limiting): over a work set of N items each of
which is actually processed — its call script resolves and its transcript
loads with segments, so no `continue` of refiner.py lines 139-147 skips
it — the refiner performs exactly N-1 between-item waits, each the
configured delay D, and the last item's event block contains no such
wait; a skipped item bypasses the wait along with the rest of the loop
body.  The vlm stage violates the claim: its wait is the hardwired 60
seconds of vlm_generator.py line 329 rather than a configuration value,
and it is performed after the generator call of each gatekeeper-passed
item — one wait per generator call, the last item included — instead of
between items (see the counterexample). -/
theorem claim_C6_rate_limiting
    (env : RefEnv) (inputListing outListing : List String) (delay maxFiles : Nat)
    (venv : VlmEnv) (ledger : List VlmLogRow) (files : List String) (df : List SummaryRow)
    (hres : ∀ b ∈ refinerWorkSet inputListing outListing maxFiles,
      (refinerStep env b).stalled = false)
    (hproc : ∀ b ∈ refinerWorkSet inputListing outListing maxFiles,
      (refinerStep env b).skipped = false) :
    rateSleepTally (run_refiner_pipeline env inputListing outListing delay maxFiles)
      = (refinerWorkSet inputListing outListing maxFiles).length - 1
    ∧ (∀ e ∈ (run_refiner_pipeline env inputListing outListing delay maxFiles).events,
        isRateSleep e = true → e = REvent.rateSleep delay)
    ∧ (∀ blk, (run_refiner_pipeline env inputListing outListing delay
          maxFiles).blocks.getLast? = some blk → blk.filter isRateSleep = [])
    ∧ vlmSleepCount (run_vlm_generation_pipeline venv ledger files df).events
      = vlmGenCount (run_vlm_generation_pipeline venv ledger files df).events
    ∧ (∀ e ∈ (run_vlm_generation_pipeline venv ledger files df).events,
        (match e with | VEvent.sleep _ => true | _ => false) = true → e = VEvent.sleep 60) := by
  have hnd : (refinerWorkSet inputListing outListing maxFiles).Nodup := by
    rw [refinerWorkSet_eq]
    exact (sortDedup_nodup _).sublist (List.take_sublist _ _)
  refine ⟨?_, ?_, ?_, ?_, ?_⟩
  · rw [run_refiner_eq]
    exact refinerItems_rateSleep_count env delay _ hnd hres hproc
  · intro e he hrs
    rw [run_refiner_eq] at he
    rcases refinerItems_events_shape env delay _ _ e he with ⟨b2, _, h1⟩ | h1 | h1 <;>
      rw [h1] at hrs ⊢ <;> simp [isRateSleep] at hrs
  · rw [run_refiner_eq]
    exact refinerItems_last_block env delay _ hnd hres
  · exact vlmItems_sleep_eq_gen venv files (vlmCompletedIds ledger) df
  · exact vlmItems_sleep_sixty venv files (vlmCompletedIds ledger) df

/-- Witness for the amended C6: a two-item refiner work set performs
exactly one between-item wait, and a one-item vlm run performs one sleep
for its one generator call. -/
theorem claim_C6_witness :
    rateSleepTally (run_refiner_pipeline okRefEnv ["a.json", "b.json"] [] 7 10) = 1
    ∧ vlmSleepCount (run_vlm_generation_pipeline c1RunV.env [] [] c1RunV.df).events
      = vlmGenCount (run_vlm_generation_pipeline c1RunV.env [] [] c1RunV.df).events := by
  have h := claim_C6_rate_limiting okRefEnv ["a.json", "b.json"] [] 7 10
    c1RunV.env [] [] c1RunV.df (by decide) (by decide)
  refine ⟨?_, h.2.2.2.1⟩
  rw [h.1]
  decide

/-- Counterexample to C6 as stated: a vlm run whose work set is the single
item `v`, which passes the gatekeeper.  The claim requires N-1 = 0 waits
and none after the last item, with the delay taken from configuration; the
run performs one 60-second wait (a constant in the source, not a
configuration value), placed after the generator call of the last item. -/
theorem claim_C6_counterexample :
    (run_vlm_generation_pipeline c1RunV.env [] [] c1RunV.df).attempted = ["v"]
    ∧ (run_vlm_generation_pipeline c1RunV.env [] [] c1RunV.df).events
      = [VEvent.gateCall "v", VEvent.genCall "v", VEvent.sleep 60] := by
  decide

theorem advStep_attempted_eq (env : AdvEnv) (pids : List String) (f : String) :
    (advStep env pids f).attempted
      = if pids.contains (stripExt f) then [] else [stripExt f] := by
  unfold advStep
  dsimp only []
  repeat' split
  all_goals simp_all [AdvOut.none]

theorem advItems_attempted_eq (env : AdvEnv) (pids : List String) (fs : List String) :
    (advItems env pids fs).attempted
      = (fs.map stripExt).filter (fun v => !pids.contains v) := by
  induction fs with
  | nil => rfl
  | cons f rest ih =>
    show (advStep env pids f).attempted ++ _ = _
    rw [advStep_attempted_eq, ih, List.map_cons, List.filter_cons]
    by_cases h : pids.contains (stripExt f) = true
    · rw [if_pos h]
      rw [if_neg (by rw [h]; exact Bool.false_ne_true)]
      exact List.nil_append _
    · rw [if_neg h]
      have hb : (!pids.contains (stripExt f)) = true := by
        cases hc : pids.contains (stripExt f)
        · rfl
        · exact absurd hc h
      rw [if_pos hb]
      rfl

theorem advStep_terminal_detect (env : AdvEnv) (pids : List String) (f : String) :
    ∀ r ∈ (advStep env pids f).rows, advTerminal r.status = true →
      env.detect (stripExt f) ≠ Option.none := by
  intro r hr ht
  unfold advStep at hr
  dsimp only [] at hr
  repeat' split at hr
  all_goals simp_all [AdvOut.none, advTerminal]

theorem advItems_terminal_detect (env : AdvEnv) (pids : List String) (fs : List String) :
    ∀ r ∈ (advItems env pids fs).rows, advTerminal r.status = true →
      env.detect r.video_id ≠ Option.none := by
  induction fs with
  | nil => intro r hr; simp [advItems, AdvOut.none] at hr
  | cons f rest ih =>
    intro r hr ht
    simp only [advItems, List.mem_append] at hr
    rcases hr with hr | hr
    · have hid := (advStep_rows_id env pids f r hr).1
      rw [hid]
      exact advStep_terminal_detect env pids f r hr ht
    · exact ih r hr ht

theorem refinerStep_load_fail (env : RefEnv) (b : String) (hload : env.load b = none) :
    refinerStep env b
      = { events := [], row := Option.none, txtArtifact := Option.none,
          fullResponse := Option.none, stalled := false, skipped := true } := by
  unfold refinerStep
  rw [hload]

theorem refinerStep_success_artifact (env : RefEnv) (x : String) :
    ∀ r, (refinerStep env x).row = some r → r.success = true →
      (refinerStep env x).txtArtifact = some x := by
  intro r hr hs
  unfold refinerStep at hr ⊢
  dsimp only [] at hr ⊢
  repeat' split at hr
  all_goals try rw [Option.some.injEq] at hr
  all_goals try subst hr
  all_goals simp_all

/-- Claim C8, amended scope (per-item error containment in the refiner and
adverse-event stages, the ones the claim cites): a per-item failure leaves
at most a non-terminal record and the run continues with the next item,
and the run function is total — only stage-setup problems prevent a run.
Adverse-event stage: every eligible input file outside the completed set
is processed whatever the other items do; terminal rows arise only from
successful analyst calls, so a failed call leaves only the non-terminal
ERROR row; an unreadable input leaves no record at all and the item is
still counted as processed.  Refiner: with every script resolving, the
whole work set is processed; an unreadable input is skipped silently with
no row and no call; and a success row is recorded only together with its
artifact, so a failed item gets at most a success-false (non-terminal)
row.  The vlm stage is exempted: a failed gatekeeper call there produces a
terminal REJECTED row (claim C10), which the counterexample shows to
violate the claim as stated. -/
theorem claim_C8_error_containment
    (aenv : AdvEnv) (ledgerA : List AdvLogRow) (inputListing : List String)
    (renv : RefEnv) (inputListing2 outListing2 : List String) (delay maxFiles : Nat)
    (f b : String)
    (hres : ∀ x ∈ refinerWorkSet inputListing2 outListing2 maxFiles,
      (refinerStep renv x).stalled = false)
    (hload : renv.load b = none) :
    (run_adverse_event_pipeline aenv ledgerA inputListing).attempted
      = ((inputListing.filter (fun x => endsWithStr x ".jsonl"
          && !(strHasSub x "all.jsonl"))).map stripExt).filter
            (fun v => !(advCompletedIds ledgerA).contains v)
    ∧ (∀ r ∈ (run_adverse_event_pipeline aenv ledgerA inputListing).rows,
        advTerminal r.status = true → aenv.detect r.video_id ≠ Option.none)
    ∧ (∀ msg, aenv.readF f = ReadOut.failed msg →
        ¬ (advCompletedIds ledgerA).contains (stripExt f) = true →
        advStep aenv (advCompletedIds ledgerA) f
          = { AdvOut.none with attempted := [stripExt f] })
    ∧ (run_refiner_pipeline renv inputListing2 outListing2 delay maxFiles).attempted
      = refinerWorkSet inputListing2 outListing2 maxFiles
    ∧ refinerStep renv b
      = { events := [], row := Option.none, txtArtifact := Option.none,
          fullResponse := Option.none, stalled := false, skipped := true }
    ∧ (∀ (env2 : RefEnv) (x : String) (r : RefRow), (refinerStep env2 x).row = some r →
        r.success = true → (refinerStep env2 x).txtArtifact = some x) := by
  refine ⟨?_, ?_, ?_, ?_, ?_, ?_⟩
  · exact advItems_attempted_eq aenv (advCompletedIds ledgerA) _
  · exact advItems_terminal_detect aenv (advCompletedIds ledgerA) _
  · intro msg hfail hpid
    unfold advStep
    dsimp only []
    rw [if_neg hpid, hfail]
  · rw [run_refiner_eq]
    exact refinerItems_attempted_eq renv delay _ _ hres
  · exact refinerStep_load_fail renv b hload
  · exact fun env2 x r => refinerStep_success_artifact env2 x r

/-- A sample parsed VLM entry for adverse-event scenarios. -/
def sampleAdvData : AdvInputData :=
  { video_id := some "x", original_filename := some "x.mp4", video_url := some "u",
    video_title := some "t", download_date := some "d", vlm_annotations := [sampleStep] }

/-- Witness for the amended C8 at a concrete state: an adverse-event run
over one readable and one unreadable input, and a refiner whose single
work-set item has an unreadable transcript. -/
theorem claim_C8_witness :
    (run_adverse_event_pipeline
        { readF := fun x => if x = "bad.jsonl" then ReadOut.failed "boom"
            else ReadOut.ok sampleAdvData,
          detect := fun _ => Option.none } [] ["bad.jsonl", "x.jsonl"]).attempted
      = ["bad", "x"]
    ∧ (run_adverse_event_pipeline
        { readF := fun x => if x = "bad.jsonl" then ReadOut.failed "boom"
            else ReadOut.ok sampleAdvData,
          detect := fun _ => Option.none } [] ["bad.jsonl", "x.jsonl"]).rows
      = [{ video_id := "x", status := .ERROR, event_count := 0 }]
    ∧ (run_refiner_pipeline
        { load := fun _ => Option.none, script := fun _ => [], videosListing := [] }
        ["c.json"] [] 3 10).attempted = ["c"]
    ∧ (run_refiner_pipeline
        { load := fun _ => Option.none, script := fun _ => [], videosListing := [] }
        ["c.json"] [] 3 10).rows = [] := by
  have h := claim_C8_error_containment
    { readF := fun x => if x = "bad.jsonl" then ReadOut.failed "boom"
        else ReadOut.ok sampleAdvData,
      detect := fun _ => Option.none } [] ["bad.jsonl", "x.jsonl"]
    { load := fun _ => Option.none, script := fun _ => [], videosListing := [] }
    ["c.json"] [] 3 10 "bad.jsonl" "c" (by decide) (by decide)
  refine ⟨by rw [h.1]; decide, by decide, by rw [h.2.2.2.1]; decide, by decide⟩

/-- Counterexample to C8 as stated: in the vlm stage, an item whose
external gatekeeper call fails receives a terminal REJECTED row — not an
error record at all, and terminal rather than non-terminal, so the claim
quantified over every stage fails there. -/
theorem claim_C8_counterexample :
    (run_vlm_generation_pipeline
      { transcript := fun _ => some "tx", gate := fun _ => GateOutcome.raised "503 down",
        gen := fun _ => Option.none } [] []
      [{ video_name := "w.mp4", url := "u", title := "t", download_date := "d",
         transcript_name := "w.txt" }]).rows.map (fun r => (r.video_id, r.status))
      = [("w", VlmStatus.REJECTED)]
    ∧ vlmTerminal VlmStatus.REJECTED = true := by
  decide

/-- Claim C10 (implicit): when the gatekeeper call raises any exception,
`check_transcript_quality` reports decision ERROR; the vlm loop then
treats the non-YES decision as a rejection: the item gets exactly one log
row, with the terminal status REJECTED and decision ERROR, no artifact and
no generator call, and every later sequence of runs of the stage leaves
the rows for that id unchanged (the item is never reprocessed). -/
theorem claim_C10_gatekeeper_error_rejects
    (env : VlmEnv) (existingFiles processedIds : List String) (row : SummaryRow)
    (ledger : List VlmLogRow) (runs : List VlmRunInput) (msg ttext : String)
    (hname : row.video_name ≠ "") (hurl : row.url ≠ "")
    (hfile : (get_stable_id row.video_name ++ ".jsonl") ∉ existingFiles)
    (hpid : get_stable_id row.video_name ∉ processedIds)
    (htr : env.transcript row = some ttext)
    (hgate : env.gate row = GateOutcome.raised msg) :
    (check_transcript_quality (env.gate row)).decision = some "ERROR"
    ∧ vlmStep env existingFiles processedIds row =
      { events := [VEvent.gateCall (get_stable_id row.video_name)]
        rows := [{ video_id := get_stable_id row.video_name,
                   original_filename := row.video_name, status := .REJECTED,
                   decision := "ERROR", confidence := "0.0", reasoning := msg,
                   video_title := row.title, url := row.url,
                   download_date := row.download_date }]
        files := [], aggregate := [], attempted := [get_stable_id row.video_name] }
    ∧ vlmRowsFor
        (vlmLedgerRuns (ledger ++ (vlmStep env existingFiles processedIds row).rows) runs)
        (get_stable_id row.video_name)
      = vlmRowsFor (ledger ++ (vlmStep env existingFiles processedIds row).rows)
        (get_stable_id row.video_name) := by
  have hstep : vlmStep env existingFiles processedIds row =
      { events := [VEvent.gateCall (get_stable_id row.video_name)]
        rows := [{ video_id := get_stable_id row.video_name,
                   original_filename := row.video_name, status := .REJECTED,
                   decision := "ERROR", confidence := "0.0", reasoning := msg,
                   video_title := row.title, url := row.url,
                   download_date := row.download_date }]
        files := [], aggregate := [], attempted := [get_stable_id row.video_name] } := by
    unfold vlmStep
    rw [htr]
    simp [hname, hurl, hfile, hpid, hgate, check_transcript_quality, upperStr_ERROR]
  refine ⟨by rw [hgate]; rfl, hstep, ?_⟩
  apply vlm_terminal_frozen
  rw [hstep]
  unfold vlmHasTerminal
  rw [List.any_append]
  simp [vlmTerminal]

/-- Witness for C10: a concrete item whose gatekeeper call raises gets the
ERROR decision, the terminal REJECTED row, no artifact, and stays excluded
from a later run that offers it again. -/
theorem claim_C10_witness :
    (check_transcript_quality (GateOutcome.raised "503 down")).decision = some "ERROR"
    ∧ vlmStep
        { transcript := fun _ => some "tx", gate := fun _ => GateOutcome.raised "503 down",
          gen := fun _ => some [sampleStep] } [] []
        { video_name := "w.mp4", url := "u", title := "t", download_date := "d",
          transcript_name := "w.txt" } =
      { events := [VEvent.gateCall "w"]
        rows := [{ video_id := "w", original_filename := "w.mp4", status := .REJECTED,
                   decision := "ERROR", confidence := "0.0", reasoning := "503 down",
                   video_title := "t", url := "u", download_date := "d" }]
        files := [], aggregate := [], attempted := ["w"] }
    ∧ vlmRowsFor
        (vlmLedgerRuns ([] ++ (vlmStep
          { transcript := fun _ => some "tx", gate := fun _ => GateOutcome.raised "503 down",
            gen := fun _ => some [sampleStep] } [] []
          { video_name := "w.mp4", url := "u", title := "t", download_date := "d",
            transcript_name := "w.txt" }).rows)
          [{ env := { transcript := fun _ => some "tx",
                      gate := fun _ => GateOutcome.parsed
                        { decision := some "YES", confidence_score := some "0.9",
                          reasoning := some "ok" },
                      gen := fun _ => some [sampleStep] },
             files := [],
             df := [{ video_name := "w.mp4", url := "u", title := "t", download_date := "d",
                      transcript_name := "w.txt" }] }])
        "w"
      = vlmRowsFor ([] ++ (vlmStep
          { transcript := fun _ => some "tx", gate := fun _ => GateOutcome.raised "503 down",
            gen := fun _ => some [sampleStep] } [] []
          { video_name := "w.mp4", url := "u", title := "t", download_date := "d",
            transcript_name := "w.txt" }).rows) "w" := by
  have h := claim_C10_gatekeeper_error_rejects
    { transcript := fun _ => some "tx", gate := fun _ => GateOutcome.raised "503 down",
      gen := fun _ => some [sampleStep] } [] []
    { video_name := "w.mp4", url := "u", title := "t", download_date := "d",
      transcript_name := "w.txt" }
    []
    [{ env := { transcript := fun _ => some "tx",
                gate := fun _ => GateOutcome.parsed
                  { decision := some "YES", confidence_score := some "0.9",
                    reasoning := some "ok" },
                gen := fun _ => some [sampleStep] },
       files := [],
       df := [{ video_name := "w.mp4", url := "u", title := "t", download_date := "d",
                transcript_name := "w.txt" }] }]
    "503 down" "tx"
    (by decide) (by decide) (by decide) (by decide) (by decide) (by decide)
  exact ⟨by decide, h.2.1, h.2.2⟩

end VideoPipeline
